import Mathlib

/-!
Verification development for the AgriSage backend (FastAPI service in
`src/backend/`).  The pipelines (market advice, weather/irrigation, government
schemes, profit prediction, crop doctor) are shallowly embedded: provider
responses (the nondeterministic outputs of the external Perplexity and Gemini
APIs) are parameters, Python floats are modelled by rationals, and the JSON
handling done by Python's `json` standard library is modelled by an executable
parser/serializer pair over a `Json` value type.
-/

set_option maxRecDepth 10000

namespace AgriSage

/-! ## A model of JSON values and of Python's `json` standard library

The repository extracts structured data from provider text with the idiom
`start = text.find('\x7b'); end = text.rfind('\x7d') + 1; json.loads(text[start:end])`
(`advisor.py` lines 79-92, `profit_prediction.py` lines 180-201 and 276-285,
`scheme_advisor.py` lines 148-157 and 239-249, `crop_doctor.py` lines 77-90).
`json.loads` / `json.dumps` are external library code, modelled here from the
spec ("attempt a strict parse as a JSON object") by a recursive-descent parser
and a serializer over the fragment used by the service: null, booleans,
integer numbers (floats are not modelled), strings with the simple backslash
escapes, arrays and objects.  Objects are association lists; key lookup takes
the last occurrence, as `json.loads` keeps the last duplicate key. -/

inductive Json where
  | jnull : Json
  | jbool (b : Bool) : Json
  | jnum (n : Int) : Json
  | jstr (s : String) : Json
  | jarr (elems : List Json) : Json
  | jobj (fields : List (String × Json)) : Json

/-- The opening brace character. -/
def lbrace : Char := '\x7b'

/-- The closing brace character. -/
def rbrace : Char := '\x7d'

/-- Serialization of one character inside a JSON string literal, as
`json.dumps` escapes it: quote and backslash get a backslash escape, all other
characters of the modelled (printable) fragment pass through unchanged. -/
def escChar (c : Char) : List Char :=
  if c = '"' then ['\\', '"']
  else if c = '\\' then ['\\', '\\']
  else [c]

/-- Escape a whole string body. -/
def escape : List Char → List Char
  | [] => []
  | c :: cs => escChar c ++ escape cs

/-- Serialize a string with surrounding quotes. -/
def serStr (s : String) : List Char :=
  '"' :: (escape s.data ++ ['"'])

/-- Decimal digit character for a value below ten. -/
def digitChar (d : Nat) : Char := Char.ofNat (48 + d)

/-- Accumulator loop producing the decimal digits of `n` in front of `acc`;
the fuel argument only drives the recursion and any value at least `n + 1`
is enough. -/
def serNatAux : Nat → Nat → List Char → List Char
  | 0, _, acc => acc
  | fuel + 1, n, acc =>
    if n < 10 then digitChar n :: acc
    else serNatAux fuel (n / 10) (digitChar (n % 10) :: acc)

/-- Decimal representation of a natural number, most significant digit
first, as `str` produces it. -/
def serNat (n : Nat) : List Char := serNatAux (n + 1) n []

/-- Decimal representation of an integer. -/
def serInt (n : Int) : List Char :=
  if n < 0 then '-' :: serNat (-n).toNat else serNat n.toNat

mutual

/-- Model of `json.dumps` (compact separators) on the modelled fragment. -/
def serJson : Json → List Char
  | .jnull => 'n' :: 'u' :: 'l' :: 'l' :: []
  | .jbool true => 't' :: 'r' :: 'u' :: 'e' :: []
  | .jbool false => 'f' :: 'a' :: 'l' :: 's' :: 'e' :: []
  | .jnum n => serInt n
  | .jstr s => serStr s
  | .jarr xs => '[' :: (serElems xs ++ [']'])
  | .jobj kvs => lbrace :: (serMembers kvs ++ [rbrace])

/-- Serialize array elements, comma separated. -/
def serElems : List Json → List Char
  | [] => []
  | [x] => serJson x
  | x :: y :: xs => serJson x ++ ',' :: serElems (y :: xs)

/-- Serialize object members, comma separated. -/
def serMembers : List (String × Json) → List Char
  | [] => []
  | [(k, v)] => serStr k ++ ':' :: serJson v
  | (k, v) :: m :: kvs => serStr k ++ ':' :: serJson v ++ ',' :: serMembers (m :: kvs)

end

/-- A character of the printable fragment: at least the space character and
strictly below the delete character, so it never needs a `\u` escape. -/
def goodChar (c : Char) : Bool :=
  decide (32 ≤ c.toNat) && decide (c.toNat < 127)

mutual

/-- Wellformedness of a JSON value in the modelled fragment: every string
(keys included) consists of printable characters. -/
def goodJson : Json → Bool
  | .jnull => true
  | .jbool _ => true
  | .jnum _ => true
  | .jstr s => s.data.all goodChar
  | .jarr xs => goodElems xs
  | .jobj kvs => goodMembers kvs

/-- Wellformedness of array elements. -/
def goodElems : List Json → Bool
  | [] => true
  | x :: xs => goodJson x && goodElems xs

/-- Wellformedness of object members. -/
def goodMembers : List (String × Json) → Bool
  | [] => true
  | (k, v) :: kvs => k.data.all goodChar && goodJson v && goodMembers kvs

end

mutual

/-- Parser fuel needed for a value: one unit per nesting step. -/
def jfuel : Json → Nat
  | .jnull => 1
  | .jbool _ => 1
  | .jnum _ => 1
  | .jstr _ => 1
  | .jarr xs => lfuel xs + 1
  | .jobj kvs => mfuel kvs + 1

/-- Parser fuel needed for a list of array elements. -/
def lfuel : List Json → Nat
  | [] => 0
  | x :: xs => jfuel x + lfuel xs + 1

/-- Parser fuel needed for a list of object members. -/
def mfuel : List (String × Json) → Nat
  | [] => 0
  | (_, v) :: kvs => jfuel v + mfuel kvs + 1

end

/-- JSON insignificant whitespace. -/
def isWs (c : Char) : Bool :=
  c = ' ' || c = '\t' || c = '\n' || c = '\r'

/-- Skip insignificant whitespace. -/
def skipWs : List Char → List Char
  | [] => []
  | c :: cs => if isWs c then skipWs cs else c :: cs

/-- Consume an expected literal tail (used for `null`, `true`, `false`). -/
def expectLit : List Char → List Char → Option (List Char)
  | [], cs => some cs
  | _ :: _, [] => none
  | l :: ls, c :: cs => if c = l then expectLit ls cs else none

/-- Decode one escaped character after a backslash; `\u` escapes are outside
the modelled fragment and rejected. -/
def unescChar (c : Char) : Option Char :=
  if c = '"' then some '"'
  else if c = '\\' then some '\\'
  else if c = '/' then some '/'
  else if c = 'n' then some '\n'
  else if c = 't' then some '\t'
  else if c = 'r' then some '\r'
  else if c = 'b' then some (Char.ofNat 8)
  else if c = 'f' then some (Char.ofNat 12)
  else none

/-- Parse a JSON string body after the opening quote; returns the decoded
characters and the remaining input after the closing quote.  Raw control
characters are rejected, as `json.loads` does in strict mode. -/
def parseStrBody : List Char → Option (List Char × List Char)
  | [] => none
  | c :: cs =>
    if c = '"' then some ([], cs)
    else if c = '\\' then
      match cs with
      | [] => none
      | d :: cs1 =>
        match unescChar d with
        | none => none
        | some e => (parseStrBody cs1).map (fun p => (e :: p.1, p.2))
    else if c.toNat < 32 then none
    else (parseStrBody cs).map (fun p => (c :: p.1, p.2))

/-- Numeric value of a digit character. -/
def dval (c : Char) : Nat := c.toNat - 48

/-- Value of a list of digit characters, most significant first. -/
def digitsVal (ds : List Char) : Nat :=
  ds.foldl (fun a c => a * 10 + dval c) 0

/-- Parse an unsigned decimal integer; a following `.`, `e` or `E` would make
the number a float, which is outside the modelled fragment. -/
def parseDigits (cs : List Char) : Option (Nat × List Char) :=
  let ds := cs.takeWhile Char.isDigit
  if ds.isEmpty then none
  else
    let rest := cs.dropWhile Char.isDigit
    match rest with
    | '.' :: _ => none
    | 'e' :: _ => none
    | 'E' :: _ => none
    | _ => some (digitsVal ds, rest)

mutual

/-- Model of the strict JSON value parser of `json.loads`, fuel-indexed. -/
def parseVal : Nat → List Char → Option (Json × List Char)
  | 0, _ => none
  | fuel + 1, cs =>
    match skipWs cs with
    | [] => none
    | c :: rest =>
      if c = 'n' then (expectLit ['u', 'l', 'l'] rest).map (fun r => (Json.jnull, r))
      else if c = 't' then (expectLit ['r', 'u', 'e'] rest).map (fun r => (Json.jbool true, r))
      else if c = 'f' then (expectLit ['a', 'l', 's', 'e'] rest).map (fun r => (Json.jbool false, r))
      else if c = '"' then (parseStrBody rest).map (fun p => (Json.jstr (String.mk p.1), p.2))
      else if c = '-' then
        match parseDigits rest with
        | some p => some (Json.jnum (-(p.1 : Int)), p.2)
        | none => none
      else if c.isDigit then
        match parseDigits (c :: rest) with
        | some p => some (Json.jnum (p.1 : Int), p.2)
        | none => none
      else if c = '[' then
        match skipWs rest with
        | [] => none
        | d :: ds => if d = ']' then some (Json.jarr [], ds)
                     else (parseElems fuel (d :: ds)).map (fun p => (Json.jarr p.1, p.2))
      else if c = lbrace then
        match skipWs rest with
        | [] => none
        | d :: ds => if d = rbrace then some (Json.jobj [], ds)
                     else (parseMembers fuel (d :: ds)).map (fun p => (Json.jobj p.1, p.2))
      else none

/-- Parse the elements of a nonempty array up to and including the closing
bracket. -/
def parseElems : Nat → List Char → Option (List Json × List Char)
  | 0, _ => none
  | fuel + 1, cs =>
    match parseVal fuel cs with
    | none => none
    | some (v, rest) =>
      match skipWs rest with
      | [] => none
      | d :: ds =>
        if d = ',' then (parseElems fuel ds).map (fun p => (v :: p.1, p.2))
        else if d = ']' then some ([v], ds)
        else none

/-- Parse the members of a nonempty object up to and including the closing
brace. -/
def parseMembers : Nat → List Char → Option (List (String × Json) × List Char)
  | 0, _ => none
  | fuel + 1, cs =>
    match skipWs cs with
    | [] => none
    | c :: rest =>
      if c = '"' then
        match parseStrBody rest with
        | none => none
        | some (k, rest1) =>
          match skipWs rest1 with
          | [] => none
          | d :: ds =>
            if d = ':' then
              match parseVal fuel ds with
              | none => none
              | some (v, rest2) =>
                match skipWs rest2 with
                | [] => none
                | e :: es =>
                  if e = ',' then
                    (parseMembers fuel es).map (fun p => ((String.mk k, v) :: p.1, p.2))
                  else if e = rbrace then some ([(String.mk k, v)], es)
                  else none
            else none
      else none

end

/-- Model of `json.loads`: parse one value, require only whitespace after
it.  Returns `none` where `json.loads` raises `json.JSONDecodeError`. -/
def loads (cs : List Char) : Option Json :=
  match parseVal (cs.length + 1) cs with
  | some (v, rest) => if (skipWs rest).isEmpty then some v else none
  | none => none

/-- Model of `json.dumps` returning a `String`. -/
def dumps (v : Json) : String := String.mk (serJson v)

/-! ## The structured extractor

Every pipeline locates the candidate JSON payload with `text.find` on the
opening brace and `text.rfind` on the closing brace and slices between them
(`advisor.py` 79-92 and the parallel sites listed above).  The spec names the
three outcomes NotFound / ParseError / Ok; in the code they are respectively
the `return None` at the `start == -1 or end == 0` guard, the caught
`json.JSONDecodeError`, and the parsed dictionary. -/

/-- Index of the first occurrence of a character, as Python `str.find`
(returning `none` where Python returns `-1`). -/
def firstIdx (c : Char) : List Char → Option Nat
  | [] => none
  | x :: xs => if x = c then some 0 else (firstIdx c xs).map (fun i => i + 1)

/-- Index of the last occurrence of a character, as Python `str.rfind`. -/
def lastIdx (c : Char) : List Char → Option Nat
  | [] => none
  | x :: xs =>
    match lastIdx c xs with
    | some i => some (i + 1)
    | none => if x = c then some 0 else none

inductive ExtractResult where
  | notFound : ExtractResult
  | parseError : ExtractResult
  | ok (v : Json) : ExtractResult

/-- The structured extractor: `start = text.find('\x7b')`,
`end = text.rfind('\x7d') + 1`, and on `start != -1 and end != 0` a strict
parse of `text[start:end]`. -/
def extract (text : String) : ExtractResult :=
  let cs := text.data
  match firstIdx lbrace cs, lastIdx rbrace cs with
  | some s, some e =>
    let slice := (cs.drop s).take (e + 1 - s)
    match loads slice with
    | some v => .ok v
    | none => .parseError
  | _, _ => .notFound

/-- Last-occurrence lookup of a key in an object, the membership/selection
model for Python dictionaries built by `json.loads`. -/
def Json.getKey? (v : Json) (key : String) : Option Json :=
  match v with
  | .jobj kvs =>
    match kvs.filter (fun kv => kv.1 = key) with
    | [] => none
    | x :: xs => some ((x :: xs).getLast (by simp)).2
  | _ => none

/-- Python `key in doc` on a parsed object. -/
def Json.hasKey (v : Json) (key : String) : Bool :=
  (v.getKey? key).isSome

/-- Python falsiness of a JSON value (`if not data:`). -/
def jsonFalsy (v : Json) : Bool :=
  match v with
  | .jnull => true
  | .jbool b => !b
  | .jnum n => n = 0
  | .jstr s => s.isEmpty
  | .jarr xs => xs.isEmpty
  | .jobj kvs => kvs.isEmpty

/-! ## Round-trip facts about the JSON model

These culminate in `parse_ser`: parsing a serialized wellformed value
succeeds and returns the value, with any remainder untouched. -/

theorem skipWs_cons {c : Char} (h : isWs c = false) (cs : List Char) :
    skipWs (c :: cs) = c :: cs := by
  simp [skipWs, h]

theorem string_mk_data (s : String) : String.mk s.data = s := rfl

theorem parseStrBody_quote (rest : List Char) :
    parseStrBody ('"' :: rest) = some ([], rest) := by
  rw [parseStrBody.eq_def]
  simp

theorem parseStrBody_backslash (d : Char) (rest : List Char) :
    parseStrBody ('\\' :: d :: rest) =
      match unescChar d with
      | none => none
      | some e => (parseStrBody rest).map (fun p => (e :: p.1, p.2)) := by
  rw [parseStrBody.eq_def]
  simp

theorem parseStrBody_other {c : Char} (h1 : ¬ c = '"') (h2 : ¬ c = '\\')
    (h3 : ¬ c.toNat < 32) (rest : List Char) :
    parseStrBody (c :: rest) = (parseStrBody rest).map (fun p => (c :: p.1, p.2)) := by
  rw [parseStrBody.eq_def]
  simp [h1, h2, h3]

theorem parseStrBody_escape :
    ∀ (s : List Char), (∀ c ∈ s, goodChar c = true) →
      ∀ rest, parseStrBody (escape s ++ '"' :: rest) = some (s, rest) := by
  intro s
  induction s with
  | nil =>
    intro _ rest
    show parseStrBody ([] ++ '"' :: rest) = _
    rw [List.nil_append, parseStrBody_quote]
  | cons c cs ihs =>
    intro hg rest
    have hgc : goodChar c = true := hg c (by simp)
    have hcs : ∀ x ∈ cs, goodChar x = true := fun x hx => hg x (by simp [hx])
    have hge : 32 ≤ c.toNat ∧ c.toNat < 127 := by
      simpa [goodChar] using hgc
    by_cases hq : c = '"'
    · subst hq
      show parseStrBody ((escChar '"' ++ escape cs) ++ '"' :: rest) = _
      have : (escChar '"' ++ escape cs) ++ '"' :: rest =
          '\\' :: '"' :: (escape cs ++ '"' :: rest) := by
        simp [escChar]
      rw [this, parseStrBody_backslash, ihs hcs rest]
      rfl
    · by_cases hb : c = '\\'
      · subst hb
        show parseStrBody ((escChar '\\' ++ escape cs) ++ '"' :: rest) = _
        have : (escChar '\\' ++ escape cs) ++ '"' :: rest =
            '\\' :: '\\' :: (escape cs ++ '"' :: rest) := by
          simp [escChar]
        rw [this, parseStrBody_backslash, ihs hcs rest]
        rfl
      · have hlt : ¬ (c.toNat < 32) := by omega
        show parseStrBody ((escChar c ++ escape cs) ++ '"' :: rest) = _
        have : (escChar c ++ escape cs) ++ '"' :: rest =
            c :: (escape cs ++ '"' :: rest) := by
          simp [escChar, hq, hb]
        rw [this, parseStrBody_other hq hb hlt, ihs hcs rest]
        rfl

/-- Proof-side description of the digit list: most significant digit first,
by well-founded recursion on the value. -/
def natDigits (n : Nat) : List Char :=
  if _h : n < 10 then [digitChar n]
  else natDigits (n / 10) ++ [digitChar (n % 10)]
  decreasing_by exact Nat.div_lt_self (by omega) (by omega)

theorem serNatAux_eq :
    ∀ (fuel n : Nat) (acc : List Char), n < fuel →
      serNatAux fuel n acc = natDigits n ++ acc := by
  intro fuel
  induction fuel with
  | zero => intro n acc h; omega
  | succ fuel ih =>
    intro n acc h
    by_cases h10 : n < 10
    · rw [natDigits]
      simp [serNatAux, h10]
    · have hdiv : n / 10 < fuel := by
        have := Nat.div_lt_self (show 0 < n by omega) (show 1 < 10 by omega)
        omega
      simp only [serNatAux, if_neg h10]
      rw [ih _ _ hdiv]
      conv_rhs => rw [natDigits]
      rw [dif_neg h10]
      simp [List.append_assoc]

theorem serNat_eq (n : Nat) : serNat n = natDigits n := by
  rw [serNat, serNatAux_eq _ _ _ (by omega), List.append_nil]

theorem serNat_head :
    ∀ n : Nat, ∃ c cs, serNat n = c :: cs ∧ c.isDigit = true := by
  intro n
  rw [serNat_eq]
  induction n using Nat.strong_induction_on with
  | _ n ih =>
    rw [natDigits]
    split
    · refine ⟨digitChar n, [], rfl, ?_⟩
      rename_i h
      interval_cases n <;> decide
    · obtain ⟨c, cs, hc, hd⟩ := ih (n / 10) (Nat.div_lt_self (by omega) (by omega))
      exact ⟨c, cs ++ [digitChar (n % 10)], by rw [hc]; rfl, hd⟩

theorem serNat_all_digits :
    ∀ n : Nat, ∀ c ∈ serNat n, c.isDigit = true := by
  intro n
  rw [serNat_eq]
  induction n using Nat.strong_induction_on with
  | _ n ih =>
    rw [natDigits]
    split
    · intro c hc
      simp only [List.mem_singleton] at hc
      subst hc
      rename_i h
      interval_cases n <;> decide
    · intro c hc
      rw [List.mem_append] at hc
      rcases hc with hc | hc
      · exact ih (n / 10) (Nat.div_lt_self (by omega) (by omega)) c hc
      · simp only [List.mem_singleton] at hc
        subst hc
        have : n % 10 < 10 := Nat.mod_lt _ (by omega)
        interval_cases h : (n % 10) <;> decide

theorem digitsVal_append_singleton (l : List Char) (c : Char) :
    digitsVal (l ++ [c]) = digitsVal l * 10 + dval c := by
  simp [digitsVal, List.foldl_append]

theorem digitsVal_serNat : ∀ n : Nat, digitsVal (serNat n) = n := by
  intro n
  rw [serNat_eq]
  induction n using Nat.strong_induction_on with
  | _ n ih =>
    rw [natDigits]
    split
    · rename_i h
      show digitsVal [digitChar n] = n
      interval_cases n <;> decide
    · rename_i h
      rw [digitsVal_append_singleton, ih (n / 10) (Nat.div_lt_self (by omega) (by omega))]
      have h1 : dval (digitChar (n % 10)) = n % 10 := by
        have : n % 10 < 10 := Nat.mod_lt _ (by omega)
        interval_cases h2 : (n % 10) <;> decide
      rw [h1]
      omega

theorem takeWhile_append_all {p : Char → Bool} :
    ∀ (l₁ l₂ : List Char), (∀ c ∈ l₁, p c = true) →
      (l₁ ++ l₂).takeWhile p = l₁ ++ l₂.takeWhile p := by
  intro l₁ l₂ h
  induction l₁ with
  | nil => simp
  | cons c cs ih =>
    have hc : p c = true := h c (by simp)
    have hcs : ∀ x ∈ cs, p x = true := fun x hx => h x (by simp [hx])
    simp [List.takeWhile, hc, ih hcs]

theorem dropWhile_append_all {p : Char → Bool} :
    ∀ (l₁ l₂ : List Char), (∀ c ∈ l₁, p c = true) →
      (l₁ ++ l₂).dropWhile p = l₂.dropWhile p := by
  intro l₁ l₂ h
  induction l₁ with
  | nil => simp
  | cons c cs ih =>
    have hc : p c = true := h c (by simp)
    have hcs : ∀ x ∈ cs, p x = true := fun x hx => h x (by simp [hx])
    simp [List.dropWhile, hc, ih hcs]

/-- A list on which a just-parsed number correctly stops: empty, or headed by
a character that neither extends the digit run nor turns it into a float. -/
def numStop : List Char → Bool
  | [] => true
  | c :: _ => !(c.isDigit || c = '.' || c = 'e' || c = 'E')

theorem parseDigits_serNat (n : Nat) (rest : List Char) (h : numStop rest = true) :
    parseDigits (serNat n ++ rest) = some (n, rest) := by
  have hall := serNat_all_digits n
  have htake : (serNat n ++ rest).takeWhile Char.isDigit = serNat n ++ rest.takeWhile Char.isDigit :=
    takeWhile_append_all _ _ hall
  have hdrop : (serNat n ++ rest).dropWhile Char.isDigit = rest.dropWhile Char.isDigit :=
    dropWhile_append_all _ _ hall
  obtain ⟨c0, cs0, hc0, _⟩ := serNat_head n
  cases rest with
  | nil =>
    simp only [parseDigits, htake, hdrop]
    rw [List.takeWhile_nil, List.dropWhile_nil, List.append_nil]
    rw [hc0]
    simp only [List.isEmpty_cons, Bool.false_eq_true, if_false]
    rw [← hc0, digitsVal_serNat]
  | cons r rs =>
    simp only [numStop, Bool.not_eq_true', Bool.or_eq_false_iff] at h
    obtain ⟨⟨⟨hrd, hr1⟩, hr2⟩, hr3⟩ := h
    have hrd' : r.isDigit = false := hrd
    have htk : (r :: rs).takeWhile Char.isDigit = [] := by simp [List.takeWhile, hrd']
    have hdk : (r :: rs).dropWhile Char.isDigit = r :: rs := by simp [List.dropWhile, hrd']
    simp only [parseDigits, htake, hdrop, htk, hdk, List.append_nil]
    rw [hc0]
    simp only [List.isEmpty_cons, Bool.false_eq_true, if_false]
    rw [← hc0, digitsVal_serNat]
    have h1 : decide (r = '.') = false := by simpa using hr1
    have h2 : decide (r = 'e') = false := by simpa using hr2
    have h3 : decide (r = 'E') = false := by simpa using hr3
    split
    · rename_i heq
      rw [List.cons.injEq] at heq
      simp [heq.1] at h1
    · rename_i heq
      rw [List.cons.injEq] at heq
      simp [heq.1] at h2
    · rename_i heq
      rw [List.cons.injEq] at heq
      simp [heq.1] at h3
    · rfl

theorem expectLit_self : ∀ (l rest : List Char), expectLit l (l ++ rest) = some rest := by
  intro l
  induction l with
  | nil => intro rest; rfl
  | cons c cs ih => intro rest; simp [expectLit, ih]

theorem ne_of_isDigit {c x : Char} (h : c.isDigit = true) (hx : x.isDigit = false) :
    ¬ c = x := by
  intro he
  rw [he] at h
  rw [h] at hx
  exact Bool.noConfusion hx

theorem isWs_false_of_isDigit {c : Char} (h : c.isDigit = true) : isWs c = false := by
  cases hw : isWs c
  · rfl
  · exfalso
    have : ((c = ' ' ∨ c = '\t') ∨ c = '\n') ∨ c = '\r' := by
      simpa [isWs] using hw
    rcases this with ((h1 | h1) | h1) | h1 <;> (subst h1; exact absurd h (by decide))

theorem serJson_null : serJson Json.jnull = 'n' :: 'u' :: 'l' :: 'l' :: [] := by
  rw [serJson.eq_def]

theorem serJson_true : serJson (Json.jbool true) = 't' :: 'r' :: 'u' :: 'e' :: [] := by
  rw [serJson.eq_def]

theorem serJson_false : serJson (Json.jbool false) = 'f' :: 'a' :: 'l' :: 's' :: 'e' :: [] := by
  rw [serJson.eq_def]

theorem serJson_num (n : Int) : serJson (Json.jnum n) = serInt n := by
  rw [serJson.eq_def]

theorem serJson_str (s : String) : serJson (Json.jstr s) = serStr s := by
  rw [serJson.eq_def]

theorem serJson_arr (xs : List Json) : serJson (Json.jarr xs) = '[' :: (serElems xs ++ [']']) := by
  rw [serJson.eq_def]

theorem serJson_obj (kvs : List (String × Json)) :
    serJson (Json.jobj kvs) = lbrace :: (serMembers kvs ++ [rbrace]) := by
  rw [serJson.eq_def]

theorem serElems_one (x : Json) : serElems [x] = serJson x := by
  rw [serElems.eq_def]

theorem serElems_cons₂ (x y : Json) (xs : List Json) :
    serElems (x :: y :: xs) = serJson x ++ ',' :: serElems (y :: xs) := by
  rw [serElems.eq_def]

theorem serMembers_one (k : String) (v : Json) :
    serMembers [(k, v)] = serStr k ++ ':' :: serJson v := by
  rw [serMembers.eq_def]

theorem serMembers_cons₂ (k : String) (v : Json) (m : String × Json)
    (kvs : List (String × Json)) :
    serMembers ((k, v) :: m :: kvs) = serStr k ++ ':' :: serJson v ++ ',' :: serMembers (m :: kvs) := by
  rw [serMembers.eq_def]

theorem serJson_head :
    ∀ v : Json, ∃ c t, serJson v = c :: t ∧ isWs c = false ∧ ¬ c = ']' := by
  intro v
  cases v with
  | jnull => exact ⟨'n', _, serJson_null, by decide, by decide⟩
  | jbool b =>
    cases b
    · exact ⟨'f', _, serJson_false, by decide, by decide⟩
    · exact ⟨'t', _, serJson_true, by decide, by decide⟩
  | jnum n =>
    rw [serJson_num, serInt]
    by_cases hn : n < 0
    · exact ⟨'-', _, by rw [if_pos hn], by decide, by decide⟩
    · obtain ⟨c, cs, hc, hd⟩ := serNat_head n.toNat
      exact ⟨c, cs, by rw [if_neg hn, hc], isWs_false_of_isDigit hd,
        ne_of_isDigit hd (by decide)⟩
  | jstr s => exact ⟨'"', _, serJson_str s, by decide, by decide⟩
  | jarr xs => exact ⟨'[', _, serJson_arr xs, by decide, by decide⟩
  | jobj kvs => exact ⟨lbrace, _, serJson_obj kvs, by decide, by decide⟩

theorem parseVal_null (fuel : Nat) (rest : List Char) :
    parseVal (fuel + 1) ('n' :: rest) =
      (expectLit ['u', 'l', 'l'] rest).map (fun r => (Json.jnull, r)) := by
  rw [parseVal.eq_2]
  rw [show skipWs ('n' :: rest) = 'n' :: rest from skipWs_cons (by decide) rest]
  simp

theorem parseVal_true (fuel : Nat) (rest : List Char) :
    parseVal (fuel + 1) ('t' :: rest) =
      (expectLit ['r', 'u', 'e'] rest).map (fun r => (Json.jbool true, r)) := by
  rw [parseVal.eq_2]
  rw [show skipWs ('t' :: rest) = 't' :: rest from skipWs_cons (by decide) rest]
  simp

theorem parseVal_fls (fuel : Nat) (rest : List Char) :
    parseVal (fuel + 1) ('f' :: rest) =
      (expectLit ['a', 'l', 's', 'e'] rest).map (fun r => (Json.jbool false, r)) := by
  rw [parseVal.eq_2]
  rw [show skipWs ('f' :: rest) = 'f' :: rest from skipWs_cons (by decide) rest]
  simp

theorem parseVal_quote (fuel : Nat) (rest : List Char) :
    parseVal (fuel + 1) ('"' :: rest) =
      (parseStrBody rest).map (fun p => (Json.jstr (String.mk p.1), p.2)) := by
  rw [parseVal.eq_2]
  rw [show skipWs ('"' :: rest) = '"' :: rest from skipWs_cons (by decide) rest]
  simp

theorem parseVal_minus (fuel : Nat) (rest : List Char) :
    parseVal (fuel + 1) ('-' :: rest) =
      (match parseDigits rest with
       | some p => some (Json.jnum (-(p.1 : Int)), p.2)
       | none => none) := by
  rw [parseVal.eq_2]
  rw [show skipWs ('-' :: rest) = '-' :: rest from skipWs_cons (by decide) rest]
  simp

theorem parseVal_digit (fuel : Nat) {c : Char} (hd : c.isDigit = true) (rest : List Char) :
    parseVal (fuel + 1) (c :: rest) =
      (match parseDigits (c :: rest) with
       | some p => some (Json.jnum (p.1 : Int), p.2)
       | none => none) := by
  have h1 : ¬ c = 'n' := ne_of_isDigit hd (by decide)
  have h2 : ¬ c = 't' := ne_of_isDigit hd (by decide)
  have h3 : ¬ c = 'f' := ne_of_isDigit hd (by decide)
  have h4 : ¬ c = '"' := ne_of_isDigit hd (by decide)
  have h5 : ¬ c = '-' := ne_of_isDigit hd (by decide)
  rw [parseVal.eq_2]
  rw [show skipWs (c :: rest) = c :: rest from skipWs_cons (isWs_false_of_isDigit hd) rest]
  simp [h1, h2, h3, h4, h5, hd]

theorem parseVal_lbrack (fuel : Nat) (rest : List Char) :
    parseVal (fuel + 1) ('[' :: rest) =
      (match skipWs rest with
       | [] => none
       | d :: ds => if d = ']' then some (Json.jarr [], ds)
                    else (parseElems fuel (d :: ds)).map (fun p => (Json.jarr p.1, p.2))) := by
  rw [parseVal.eq_2]
  rw [show skipWs ('[' :: rest) = '[' :: rest from skipWs_cons (by decide) rest]
  simp

theorem parseVal_lbrace (fuel : Nat) (rest : List Char) :
    parseVal (fuel + 1) (lbrace :: rest) =
      (match skipWs rest with
       | [] => none
       | d :: ds => if d = rbrace then some (Json.jobj [], ds)
                    else (parseMembers fuel (d :: ds)).map (fun p => (Json.jobj p.1, p.2))) := by
  rw [parseVal.eq_2]
  rw [show skipWs (lbrace :: rest) = lbrace :: rest from skipWs_cons (by decide) rest]
  simp [lbrace]

theorem parseElems_succ (fuel : Nat) (cs : List Char) :
    parseElems (fuel + 1) cs =
      (match parseVal fuel cs with
       | none => none
       | some (v, rest) =>
         match skipWs rest with
         | [] => none
         | d :: ds =>
           if d = ',' then (parseElems fuel ds).map (fun p => (v :: p.1, p.2))
           else if d = ']' then some ([v], ds)
           else none) := by
  rw [parseElems.eq_2]

theorem parseMembers_succ (fuel : Nat) (cs : List Char) :
    parseMembers (fuel + 1) cs =
      (match skipWs cs with
       | [] => none
       | c :: rest =>
         if c = '"' then
           match parseStrBody rest with
           | none => none
           | some (k, rest1) =>
             match skipWs rest1 with
             | [] => none
             | d :: ds =>
               if d = ':' then
                 match parseVal fuel ds with
                 | none => none
                 | some (v, rest2) =>
                   match skipWs rest2 with
                   | [] => none
                   | e :: es =>
                     if e = ',' then
                       (parseMembers fuel es).map (fun p => ((String.mk k, v) :: p.1, p.2))
                     else if e = rbrace then some ([(String.mk k, v)], es)
                     else none
               else none
         else none) := by
  rw [parseMembers.eq_2]

theorem serElems_nil : serElems [] = [] := by rw [serElems.eq_def]

theorem serMembers_nil : serMembers [] = [] := by rw [serMembers.eq_def]

theorem goodJson_str (s : String) : goodJson (.jstr s) = s.data.all goodChar := by
  rw [goodJson.eq_def]

theorem goodJson_arr (xs : List Json) : goodJson (.jarr xs) = goodElems xs := by
  rw [goodJson.eq_def]

theorem goodJson_obj (kvs : List (String × Json)) : goodJson (.jobj kvs) = goodMembers kvs := by
  rw [goodJson.eq_def]

theorem goodElems_cons (x : Json) (xs : List Json) :
    goodElems (x :: xs) = (goodJson x && goodElems xs) := by
  rw [goodElems.eq_def]

theorem goodMembers_cons (k : String) (v : Json) (kvs : List (String × Json)) :
    goodMembers ((k, v) :: kvs) = (k.data.all goodChar && goodJson v && goodMembers kvs) := by
  rw [goodMembers.eq_def]

theorem jfuel_arr (xs : List Json) : jfuel (.jarr xs) = lfuel xs + 1 := by
  rw [jfuel.eq_def]

theorem jfuel_obj (kvs : List (String × Json)) : jfuel (.jobj kvs) = mfuel kvs + 1 := by
  rw [jfuel.eq_def]

theorem lfuel_cons (x : Json) (xs : List Json) : lfuel (x :: xs) = jfuel x + lfuel xs + 1 := by
  rw [lfuel.eq_def]

theorem mfuel_cons (k : String) (v : Json) (kvs : List (String × Json)) :
    mfuel ((k, v) :: kvs) = jfuel v + mfuel kvs + 1 := by
  rw [mfuel.eq_def]

theorem jfuel_pos : ∀ v : Json, 1 ≤ jfuel v := by
  intro v
  cases v <;> simp [jfuel.eq_def]

theorem lfuel_pos : ∀ xs : List Json, xs ≠ [] → 1 ≤ lfuel xs := by
  intro xs h
  cases xs with
  | nil => exact absurd rfl h
  | cons x xs => rw [lfuel_cons]; omega

theorem mfuel_pos : ∀ kvs : List (String × Json), kvs ≠ [] → 1 ≤ mfuel kvs := by
  intro kvs h
  cases kvs with
  | nil => exact absurd rfl h
  | cons m kvs => obtain ⟨k, v⟩ := m; rw [mfuel_cons]; omega

theorem numStop_cons (c : Char) (h : (c.isDigit || c = '.' || c = 'e' || c = 'E') = false)
    (rest : List Char) : numStop (c :: rest) = true := by
  simp only [numStop, h, Bool.not_false]


theorem parse_ser :
    ∀ fuel : Nat,
    (∀ v rest, goodJson v = true → jfuel v ≤ fuel → numStop rest = true →
      parseVal fuel (serJson v ++ rest) = some (v, rest)) ∧
    (∀ xs rest, xs ≠ [] → goodElems xs = true → lfuel xs ≤ fuel →
      parseElems fuel (serElems xs ++ ']' :: rest) = some (xs, rest)) ∧
    (∀ kvs rest, kvs ≠ [] → goodMembers kvs = true → mfuel kvs ≤ fuel →
      parseMembers fuel (serMembers kvs ++ rbrace :: rest) = some (kvs, rest)) := by
  intro fuel
  induction fuel with
  | zero =>
    refine ⟨?_, ?_, ?_⟩
    · intro v rest _ hf _
      have := jfuel_pos v
      omega
    · intro xs rest hne _ hf
      have := lfuel_pos xs hne
      omega
    · intro kvs rest hne _ hf
      have := mfuel_pos kvs hne
      omega
  | succ fuel ih =>
    obtain ⟨ihv, ihe, ihm⟩ := ih
    refine ⟨?_, ?_, ?_⟩
    · intro v rest hg hf hstop
      cases v with
      | jnull =>
        rw [serJson_null, List.cons_append, parseVal_null, expectLit_self]
        rfl
      | jbool b =>
        cases b
        · rw [serJson_false, List.cons_append, parseVal_fls, expectLit_self]
          rfl
        · rw [serJson_true, List.cons_append, parseVal_true, expectLit_self]
          rfl
      | jnum n =>
        rw [serJson_num, serInt]
        by_cases hn : n < 0
        · rw [if_pos hn, List.cons_append, parseVal_minus, parseDigits_serNat _ _ hstop]
          simp only [Option.some.injEq, Prod.mk.injEq, Json.jnum.injEq]
          exact ⟨by omega, trivial⟩
        · obtain ⟨c, cs, hc, hd⟩ := serNat_head n.toNat
          rw [if_neg hn, hc, List.cons_append, parseVal_digit fuel hd,
            ← List.cons_append, ← hc, parseDigits_serNat _ _ hstop]
          simp only [Option.some.injEq, Prod.mk.injEq, Json.jnum.injEq]
          exact ⟨by omega, trivial⟩
      | jstr s =>
        rw [serJson_str, serStr, List.cons_append, parseVal_quote]
        have hgs : ∀ c ∈ s.data, goodChar c = true := by
          rw [goodJson_str] at hg
          exact fun c hc => List.all_eq_true.mp hg c hc
        have harr : (escape s.data ++ ['"']) ++ rest = escape s.data ++ '"' :: rest := by
          simp
        rw [harr, parseStrBody_escape s.data hgs rest]
        simp [string_mk_data]
      | jarr xs =>
        cases xs with
        | nil =>
          rw [serJson_arr, serElems_nil, List.nil_append, List.cons_append, parseVal_lbrack,
            List.cons_append, skipWs_cons (by decide)]
          simp
        | cons x xs1 =>
          rw [serJson_arr, List.cons_append, parseVal_lbrack]
          have harr : (serElems (x :: xs1) ++ [']']) ++ rest = serElems (x :: xs1) ++ ']' :: rest := by
            simp
          rw [harr]
          obtain ⟨c, t, hct, hws, hnbr⟩ := serJson_head x
          obtain ⟨t2, ht2⟩ : ∃ t2, serElems (x :: xs1) = serJson x ++ t2 := by
            cases xs1 with
            | nil => exact ⟨[], by rw [serElems_one, List.append_nil]⟩
            | cons y ys => exact ⟨_, serElems_cons₂ x y ys⟩
          have hshape : serElems (x :: xs1) ++ ']' :: rest = c :: (t ++ (t2 ++ ']' :: rest)) := by
            rw [ht2, hct]
            simp
          have hge : goodElems (x :: xs1) = true := by rw [← goodJson_arr]; exact hg
          have hfe : lfuel (x :: xs1) ≤ fuel := by
            rw [jfuel_arr] at hf
            omega
          rw [hshape, skipWs_cons hws]
          simp only [if_neg hnbr]
          rw [← hshape, ihe (x :: xs1) rest (by simp) hge hfe]
          rfl
      | jobj kvs =>
        cases kvs with
        | nil =>
          rw [serJson_obj, serMembers_nil, List.nil_append, List.cons_append, parseVal_lbrace,
            List.cons_append, skipWs_cons (by decide)]
          simp
        | cons m kvs1 =>
          obtain ⟨k, v⟩ := m
          rw [serJson_obj, List.cons_append, parseVal_lbrace]
          have harr : (serMembers ((k, v) :: kvs1) ++ [rbrace]) ++ rest =
              serMembers ((k, v) :: kvs1) ++ rbrace :: rest := by
            simp
          rw [harr]
          obtain ⟨t2, ht2⟩ : ∃ t2, serMembers ((k, v) :: kvs1) = serStr k ++ t2 := by
            cases kvs1 with
            | nil => exact ⟨_, serMembers_one k v⟩
            | cons m2 kvs2 =>
              exact ⟨':' :: serJson v ++ ',' :: serMembers (m2 :: kvs2),
                by rw [serMembers_cons₂]; simp⟩
          have hshape : serMembers ((k, v) :: kvs1) ++ rbrace :: rest =
              '"' :: ((escape k.data ++ ['"']) ++ (t2 ++ rbrace :: rest)) := by
            rw [ht2, serStr]
            simp
          have hgm : goodMembers ((k, v) :: kvs1) = true := by rw [← goodJson_obj]; exact hg
          have hfm : mfuel ((k, v) :: kvs1) ≤ fuel := by
            rw [jfuel_obj] at hf
            omega
          rw [hshape, skipWs_cons (by decide)]
          simp only [if_neg (show ¬ ('"' : Char) = rbrace by decide)]
          rw [← hshape, ihm ((k, v) :: kvs1) rest (by simp) hgm hfm]
          rfl
    · intro xs rest hne hg hf
      cases xs with
      | nil => exact absurd rfl hne
      | cons x xs1 =>
        rw [parseElems_succ]
        have hgx : goodJson x = true := by
          rw [goodElems_cons, Bool.and_eq_true] at hg
          exact hg.1
        have hgxs : goodElems xs1 = true := by
          rw [goodElems_cons, Bool.and_eq_true] at hg
          exact hg.2
        cases xs1 with
        | nil =>
          rw [serElems_one]
          have hfx : jfuel x ≤ fuel := by
            rw [lfuel_cons] at hf
            omega
          rw [ihv x (']' :: rest) hgx hfx (numStop_cons ']' (by decide) rest)]
          simp [skipWs, isWs]
        | cons y ys =>
          rw [serElems_cons₂]
          have hfx : jfuel x ≤ fuel := by
            rw [lfuel_cons] at hf
            omega
          have hfys : lfuel (y :: ys) ≤ fuel := by
            rw [lfuel_cons] at hf
            omega
          have hsh : (serJson x ++ ',' :: serElems (y :: ys)) ++ ']' :: rest =
              serJson x ++ ',' :: (serElems (y :: ys) ++ ']' :: rest) := by
            simp
          rw [hsh, ihv x _ hgx hfx (numStop_cons ',' (by decide) _)]
          have hrec : parseElems fuel (serElems (y :: ys) ++ ']' :: rest) = some (y :: ys, rest) :=
            ihe (y :: ys) rest (by simp) hgxs hfys
          simp [skipWs, isWs, hrec]
    · intro kvs rest hne hg hf
      cases kvs with
      | nil => exact absurd rfl hne
      | cons m kvs1 =>
        obtain ⟨k, v⟩ := m
        rw [parseMembers_succ]
        have hgk : ∀ c ∈ k.data, goodChar c = true := by
          rw [goodMembers_cons, Bool.and_eq_true, Bool.and_eq_true] at hg
          exact fun c hc => List.all_eq_true.mp hg.1.1 c hc
        have hgv : goodJson v = true := by
          rw [goodMembers_cons, Bool.and_eq_true, Bool.and_eq_true] at hg
          exact hg.1.2
        have hgkvs : goodMembers kvs1 = true := by
          rw [goodMembers_cons, Bool.and_eq_true, Bool.and_eq_true] at hg
          exact hg.2
        have hfv : jfuel v ≤ fuel := by
          rw [mfuel_cons] at hf
          omega
        have hfkvs : mfuel kvs1 ≤ fuel := by
          rw [mfuel_cons] at hf
          omega
        cases kvs1 with
        | nil =>
          rw [serMembers_one, serStr]
          have hsh : (('"' :: (escape k.data ++ ['"'])) ++ ':' :: serJson v) ++ rbrace :: rest =
              '"' :: (escape k.data ++ '"' :: (':' :: (serJson v ++ rbrace :: rest))) := by
            simp
          rw [hsh, skipWs_cons (by decide)]
          have hk := parseStrBody_escape k.data hgk (':' :: (serJson v ++ rbrace :: rest))
          have hv := ihv v (rbrace :: rest) hgv hfv (numStop_cons rbrace (by decide) rest)
          simp [hk, hv, skipWs, string_mk_data,
            (show isWs ':' = false by decide),
            (show isWs rbrace = false by decide),
            (show ¬ rbrace = ',' by decide)]
        | cons m2 kvs2 =>
          rw [serMembers_cons₂, serStr]
          have hsh : (('"' :: (escape k.data ++ ['"'])) ++ ':' :: serJson v ++
                ',' :: serMembers (m2 :: kvs2)) ++ rbrace :: rest =
              '"' :: (escape k.data ++ '"' ::
                (':' :: (serJson v ++ ',' :: (serMembers (m2 :: kvs2) ++ rbrace :: rest)))) := by
            simp
          rw [hsh, skipWs_cons (by decide)]
          have hk := parseStrBody_escape k.data hgk
            (':' :: (serJson v ++ ',' :: (serMembers (m2 :: kvs2) ++ rbrace :: rest)))
          have hv := ihv v _ hgv hfv (numStop_cons ',' (by decide)
            (serMembers (m2 :: kvs2) ++ rbrace :: rest))
          have hm : parseMembers fuel (serMembers (m2 :: kvs2) ++ rbrace :: rest) =
              some (m2 :: kvs2, rest) :=
            ihm (m2 :: kvs2) rest (by simp) hgkvs hfkvs
          simp [hk, hv, hm, skipWs, string_mk_data,
            (show isWs ':' = false by decide),
            (show isWs ',' = false by decide)]

theorem lfuel_nil : lfuel ([] : List Json) = 0 := by simp [lfuel.eq_def]

theorem mfuel_nil : mfuel ([] : List (String × Json)) = 0 := by simp [mfuel.eq_def]

mutual

theorem jfuel_le_len : (v : Json) → jfuel v ≤ (serJson v).length
  | .jnull => by simp [jfuel.eq_def, serJson_null]
  | .jbool b => by cases b <;> simp [jfuel.eq_def, serJson_true, serJson_false]
  | .jnum n => by
    simp only [jfuel.eq_def, serJson_num, serInt]
    by_cases hn : n < 0
    · rw [if_pos hn]
      simp
    · obtain ⟨c, cs, hc, _⟩ := serNat_head n.toNat
      rw [if_neg hn, hc]
      simp
  | .jstr s => by simp [jfuel.eq_def, serJson_str, serStr]
  | .jarr xs => by
    have h := lfuel_le_len xs
    rw [jfuel_arr, serJson_arr]
    simp only [List.length_cons, List.length_append, List.length_singleton]
    omega
  | .jobj kvs => by
    have h := mfuel_le_len kvs
    rw [jfuel_obj, serJson_obj]
    simp only [List.length_cons, List.length_append, List.length_singleton]
    omega

theorem lfuel_le_len : (xs : List Json) → lfuel xs ≤ (serElems xs).length + 1
  | [] => by simp [lfuel.eq_def, serElems_nil]
  | [x] => by
    have h := jfuel_le_len x
    rw [lfuel_cons, lfuel_nil, serElems_one]
    omega
  | x :: y :: ys => by
    have h1 := jfuel_le_len x
    have h2 := lfuel_le_len (y :: ys)
    rw [lfuel_cons, serElems_cons₂]
    simp only [List.length_append, List.length_cons]
    omega

theorem mfuel_le_len : (kvs : List (String × Json)) → mfuel kvs ≤ (serMembers kvs).length + 1
  | [] => by simp [mfuel.eq_def, serMembers_nil]
  | [(k, v)] => by
    have h := jfuel_le_len v
    rw [mfuel_cons, mfuel_nil, serMembers_one]
    simp only [List.length_append, List.length_cons]
    omega
  | (k, v) :: m2 :: kvs2 => by
    have h1 := jfuel_le_len v
    have h2 := mfuel_le_len (m2 :: kvs2)
    rw [mfuel_cons, serMembers_cons₂]
    simp only [List.length_append, List.length_cons]
    omega

end

theorem numStop_nil : numStop [] = true := rfl

theorem loads_ser (v : Json) (hg : goodJson v = true) : loads (serJson v) = some v := by
  have hb : jfuel v ≤ (serJson v).length + 1 := le_trans (jfuel_le_len v) (by omega)
  have h := (parse_ser ((serJson v).length + 1)).1 v [] hg hb numStop_nil
  rw [List.append_nil] at h
  rw [loads, h]
  rfl

theorem firstIdx_append (c : Char) :
    ∀ (pre tail : List Char), c ∉ pre →
      firstIdx c (pre ++ c :: tail) = some pre.length := by
  intro pre
  induction pre with
  | nil => intro tail _; simp [firstIdx]
  | cons x xs ih =>
    intro tail h
    have hx : ¬ x = c := fun he => h (by rw [he]; exact List.mem_cons_self c xs)
    have hxs : c ∉ xs := fun hm => h (List.mem_cons_of_mem x hm)
    simp [firstIdx, hx, ih tail hxs]

theorem lastIdx_none (c : Char) : ∀ l : List Char, c ∉ l → lastIdx c l = none := by
  intro l
  induction l with
  | nil => intro _; rfl
  | cons x xs ih =>
    intro h
    have hx : ¬ x = c := fun he => h (by rw [he]; exact List.mem_cons_self c xs)
    have hxs : c ∉ xs := fun hm => h (List.mem_cons_of_mem x hm)
    simp [lastIdx, ih hxs, hx]

theorem lastIdx_last (c : Char) :
    ∀ (l suf : List Char), c ∉ suf → lastIdx c (l ++ c :: suf) = some l.length := by
  intro l
  induction l with
  | nil =>
    intro suf h
    simp [lastIdx, lastIdx_none c suf h]
  | cons x xs ih =>
    intro suf h
    have : lastIdx c ((x :: xs) ++ c :: suf) = lastIdx c (x :: (xs ++ c :: suf)) := rfl
    rw [this]
    simp only [lastIdx, ih suf h]
    rfl

/-- The extractor applied to prose around one serialized wellformed object:
the generic engine behind claim C5. -/
theorem extract_embedded (kvs : List (String × Json)) (pre suf : String)
    (hgood : goodMembers kvs = true)
    (hpre : lbrace ∉ pre.data) (hsuf : rbrace ∉ suf.data) :
    extract (pre ++ dumps (Json.jobj kvs) ++ suf) = ExtractResult.ok (Json.jobj kvs) := by
  have hdata : (pre ++ dumps (Json.jobj kvs) ++ suf).data =
      pre.data ++ serJson (Json.jobj kvs) ++ suf.data := by
    rw [String.data_append, String.data_append]
    rfl
  have hser : serJson (Json.jobj kvs) = lbrace :: (serMembers kvs ++ [rbrace]) :=
    serJson_obj kvs
  have hshape1 : pre.data ++ serJson (Json.jobj kvs) ++ suf.data =
      pre.data ++ lbrace :: (serMembers kvs ++ [rbrace] ++ suf.data) := by
    rw [hser]
    simp
  have hshape2 : pre.data ++ serJson (Json.jobj kvs) ++ suf.data =
      (pre.data ++ lbrace :: serMembers kvs) ++ rbrace :: suf.data := by
    rw [hser]
    simp
  have hfirst : firstIdx lbrace (pre.data ++ serJson (Json.jobj kvs) ++ suf.data) =
      some pre.data.length := by
    rw [hshape1]
    exact firstIdx_append lbrace pre.data _ hpre
  have hlast : lastIdx rbrace (pre.data ++ serJson (Json.jobj kvs) ++ suf.data) =
      some (pre.data.length + (serMembers kvs).length + 1) := by
    rw [hshape2, lastIdx_last rbrace _ suf.data hsuf]
    simp
    omega
  rw [extract]
  simp only [hdata, hfirst, hlast]
  have hlen : pre.data.length + (serMembers kvs).length + 1 + 1 - pre.data.length =
      (serJson (Json.jobj kvs)).length := by
    rw [hser]
    simp
    omega
  have hdrop : (pre.data ++ serJson (Json.jobj kvs) ++ suf.data).drop pre.data.length =
      serJson (Json.jobj kvs) ++ suf.data := by
    rw [List.append_assoc]
    exact List.drop_left pre.data _
  have htake : (serJson (Json.jobj kvs) ++ suf.data).take (serJson (Json.jobj kvs)).length =
      serJson (Json.jobj kvs) := List.take_left _ _
  rw [hlen, hdrop, htake]
  rw [loads_ser (Json.jobj kvs) (by rw [goodJson_obj]; exact hgood)]

/-! ## The retrying fetch (RetryingFetcher)

`query_perplexity_for_profit_data` (`profit_prediction.py` 165-216) and
`query_perplexity_for_schemes` (`scheme_advisor.py` 133-182) run
`for attempt in range(3)` around one provider call.  A provider behaviour is a
function from the attempt index to that attempt's outcome: an exception
caught by the `except (httpx.RequestError, json.JSONDecodeError, KeyError)`
clause at transport level; a response with a non-2xx status, on which
`response.raise_for_status()` raises `httpx.HTTPStatusError` — a sibling of
`RequestError` under `httpx.HTTPError`, so the `except` tuple does not catch
it and it propagates uncaught out of the fetch, aborting the loop on that
attempt with no sleep and no wrapping; or a 2xx response whose message
content is a text (JSON decoding errors raised while parsing that text land
in the caught `except` clause, which the model reproduces by dispatching on
`extract`).  The trace records the returned/raised result, how many attempts
ran, and the `asyncio.sleep(2 ** attempt)` backoff delays in order. -/

inductive POutcome where
  | exn : POutcome
  | httpStatus : POutcome
  | content (s : String) : POutcome

inductive FetchResult where
  | ok (v : Json) : FetchResult
  | failureN : FetchResult
  | raisedE : FetchResult
  | raisedH : FetchResult

structure Trace where
  result : FetchResult
  attempts : Nat
  sleeps : List Nat

/-- `required_sections` of the profit fetch (`profit_prediction.py` 192). -/
def profitRequired : List String :=
  ["market_data", "input_costs", "yield_data", "risk_factors"]

/-- Some required section is absent from the parsed document. -/
def profitMissing (v : Json) : Bool :=
  profitRequired.any (fun k => !(v.hasKey k))

/-- One step of the profit fetch loop: `a` is the current attempt index and
`k + 1` the number of attempts still available (`k = 0` on the final
attempt).  Note the faithful translation of the `continue` in the
required-section loop (`profit_prediction.py` 193-198): it continues the
inner loop over section names, not the retry loop, so on a non-final attempt
a parsed document is returned even when sections are missing.  A non-2xx
status aborts the whole loop at that attempt: `raise_for_status()` raises
`httpx.HTTPStatusError` past the `except` tuple (`raisedH`). -/
def profitFetchAux (o : Nat → POutcome) : Nat → Nat → Trace
  | _, 0 => ⟨.failureN, 0, []⟩
  | a, k + 1 =>
    match o a with
    | .httpStatus => ⟨.raisedH, 1, []⟩
    | .exn =>
      if k = 0 then ⟨.raisedE, 1, []⟩
      else
        let t := profitFetchAux o (a + 1) k
        ⟨t.result, t.attempts + 1, 2 ^ a :: t.sleeps⟩
    | .content s =>
      match extract s with
      | .parseError =>
        if k = 0 then ⟨.raisedE, 1, []⟩
        else
          let t := profitFetchAux o (a + 1) k
          ⟨t.result, t.attempts + 1, 2 ^ a :: t.sleeps⟩
      | .notFound =>
        if k = 0 then ⟨.failureN, 1, []⟩
        else
          let t := profitFetchAux o (a + 1) k
          ⟨t.result, t.attempts + 1, 2 ^ a :: t.sleeps⟩
      | .ok v =>
        if k = 0 then
          (if profitMissing v then ⟨.failureN, 1, []⟩ else ⟨.ok v, 1, []⟩)
        else ⟨.ok v, 1, []⟩

/-- `query_perplexity_for_profit_data` with `max_retries = 3`. -/
def profitFetch (o : Nat → POutcome) : Trace := profitFetchAux o 0 3

/-- Validation of the scheme fetch (`scheme_advisor.py` 160):
`isinstance(result.get("schemes"), list) and len(result["schemes"]) > 0`. -/
def schemesValid (v : Json) : Bool :=
  match v.getKey? "schemes" with
  | some (.jarr xs) => !xs.isEmpty
  | _ => false

/-- One step of the scheme fetch loop.  Here the `continue` on an invalid
document (`scheme_advisor.py` 164) does restart the retry loop, but it jumps
over the backoff sleep at the bottom of the loop body, so that retry happens
without a delay.  A non-2xx status aborts the whole loop at that attempt:
`raise_for_status()` raises `httpx.HTTPStatusError` past the `except` tuple
(`raisedH`). -/
def schemesFetchAux (o : Nat → POutcome) : Nat → Nat → Trace
  | _, 0 => ⟨.failureN, 0, []⟩
  | a, k + 1 =>
    match o a with
    | .httpStatus => ⟨.raisedH, 1, []⟩
    | .exn =>
      if k = 0 then ⟨.raisedE, 1, []⟩
      else
        let t := schemesFetchAux o (a + 1) k
        ⟨t.result, t.attempts + 1, 2 ^ a :: t.sleeps⟩
    | .content s =>
      match extract s with
      | .parseError =>
        if k = 0 then ⟨.raisedE, 1, []⟩
        else
          let t := schemesFetchAux o (a + 1) k
          ⟨t.result, t.attempts + 1, 2 ^ a :: t.sleeps⟩
      | .notFound =>
        if k = 0 then ⟨.failureN, 1, []⟩
        else
          let t := schemesFetchAux o (a + 1) k
          ⟨t.result, t.attempts + 1, 2 ^ a :: t.sleeps⟩
      | .ok v =>
        if schemesValid v then ⟨.ok v, 1, []⟩
        else if k = 0 then ⟨.failureN, 1, []⟩
        else
          let t := schemesFetchAux o (a + 1) k
          ⟨t.result, t.attempts + 1, t.sleeps⟩

/-- `query_perplexity_for_schemes` with `max_retries = 3`. -/
def schemesFetch (o : Nat → POutcome) : Trace := schemesFetchAux o 0 3

/-- Per-attempt outcomes of the weather fetch (`weather_irrigation.py`
65-113): a 200 response always succeeds with its content; a non-200 status,
an `httpx.TimeoutException` and any other exception are all failures. -/
inductive WOutcome where
  | ok200 (content : String) : WOutcome
  | badStatus : WOutcome
  | timeoutE : WOutcome
  | otherE : WOutcome

def WOutcome.isFail : WOutcome → Bool
  | .ok200 _ => false
  | .badStatus => true
  | .timeoutE => true
  | .otherE => true

structure WTrace where
  result : Option String
  attempts : Nat
  sleeps : List Nat

/-- One step of the weather fetch loop; every failure kind returns `None`
after the final attempt (this fetch never raises). -/
def weatherFetchAux (o : Nat → WOutcome) : Nat → Nat → WTrace
  | _, 0 => ⟨none, 0, []⟩
  | a, k + 1 =>
    match o a with
    | .ok200 c => ⟨some c, 1, []⟩
    | _ =>
      if k = 0 then ⟨none, 1, []⟩
      else
        let t := weatherFetchAux o (a + 1) k
        ⟨t.result, t.attempts + 1, 2 ^ a :: t.sleeps⟩

/-- `query_perplexity_for_weather` with `max_retries = 3`. -/
def weatherFetch (o : Nat → WOutcome) : WTrace := weatherFetchAux o 0 3

/-! ## The advice expanders (AdviceExpander)

Each is a single un-retried provider call whose free-text response is the
parameter (`none` models an exception raised by the provider client and
caught by the surrounding `try`). -/

/-- `required_fields` of `expand_profit_prediction_with_gemini`
(`profit_prediction.py` 288-290). -/
def profitExpandRequired : List String :=
  ["crop_name", "region", "estimated_yield", "market_price", "total_cost",
   "expected_revenue", "expected_profit", "risk_factors", "recommendation", "notes"]

/-- `expand_profit_prediction_with_gemini` (`profit_prediction.py` 218-306):
empty text, extraction failure, a missing required field or a non-list
`risk_factors` all collapse to `None`. -/
def expandProfit : Option String → Option Json
  | none => none
  | some t =>
    if t = "" then none
    else
      match extract t with
      | .notFound => none
      | .parseError => none
      | .ok v =>
        if profitExpandRequired.all (fun k => v.hasKey k) then
          match v.getKey? "risk_factors" with
          | some (.jarr _) => some v
          | _ => none
        else none

/-- `required_fields` of `ask_gemini_for_advice` (`advisor.py` 144-145). -/
def marketAdviceRequired : List String :=
  ["recommended_action", "confidence", "rationale", "alternate_markets", "notes"]

/-- `ask_gemini_for_advice` (`advisor.py` 94-154). -/
def askGeminiForAdvice : Option String → Option Json
  | none => none
  | some t =>
    match extract t with
    | .notFound => none
    | .parseError => none
    | .ok v => if marketAdviceRequired.all (fun k => v.hasKey k) then some v else none

/-- `required_fields` of `expand_scheme_info_with_gemini`
(`scheme_advisor.py` 252). -/
def schemesExpandRequired : List String :=
  ["matched_schemes", "personalized_recommendation", "next_steps"]

/-- `expand_scheme_info_with_gemini` (`scheme_advisor.py` 184-267). -/
def expandSchemeInfo : Option String → Option Json
  | none => none
  | some t =>
    if t = "" then none
    else
      match extract t with
      | .notFound => none
      | .parseError => none
      | .ok v =>
        if schemesExpandRequired.all (fun k => v.hasKey k) then
          match v.getKey? "matched_schemes" with
          | some (.jarr xs) => if xs.isEmpty then none else some v
          | _ => none
        else none

/-! ## The market pipeline (`advisor.py` 156-198) -/

structure MarketResponseM where
  crop_name : String
  region : String
  trend_info : Json
  recommended_action : Option Json
  confidence : Option Json
  rationale : Option Json
  alternate_markets : Option Json
  notes : Option Json
  sources : List String

/-- What `analyze_market` can raise: a `fastapi.HTTPException` with a status
code, or the `httpx.HTTPStatusError` escaping the fetch uncaught. -/
inductive MarketRaise where
  | httpExc (code : Nat) : MarketRaise
  | statusErr : MarketRaise

/-- `query_perplexity_for_price_trends` (`advisor.py` 25-92): a single
attempt, no retry loop.  A caught exception (`httpx.RequestError`,
`json.JSONDecodeError`, `KeyError`) returns `None`, as does a 2xx response
without extractable or parseable JSON (`json.loads` failures on the brace
slice land in the same `except` tuple); a non-2xx response makes
`raise_for_status()` raise `httpx.HTTPStatusError`, which that tuple does
not catch, so it propagates out of the function (`Except.error ()`). -/
def marketFetch : POutcome → Except Unit (Option Json)
  | .exn => .ok none
  | .httpStatus => .error ()
  | .content s =>
    match extract s with
    | .ok v => .ok (some v)
    | .notFound => .ok none
    | .parseError => .ok none

/-- `analyze_market` (`advisor.py` 156-198): the fetch outcome and the
expander's response text are the provider parameters.  A `None` (or
Python-falsy) trend document raises `HTTPException(503)`; the uncaught
`httpx.HTTPStatusError` of a non-2xx fetch passes straight through
(`analyze_market` has no `try`). -/
def analyzeMarket (crop_name region : String) (o : POutcome)
    (geminiText : Option String) : Except MarketRaise MarketResponseM :=
  match marketFetch o with
  | .error () => .error .statusErr
  | .ok none => .error (.httpExc 503)
  | .ok (some t) =>
    if jsonFalsy t then .error (.httpExc 503)
    else
      match askGeminiForAdvice geminiText with
      | some d =>
        .ok ⟨crop_name, region, t, d.getKey? "recommended_action", d.getKey? "confidence",
          d.getKey? "rationale", d.getKey? "alternate_markets", d.getKey? "notes",
          ["perplexity", "gemini"]⟩
      | none => .ok ⟨crop_name, region, t, none, none, none, none, none, ["perplexity"]⟩

/-- `smart_market_endpoint` (`api.py` 155-169): a raised `HTTPException` is
re-raised unchanged; any other exception — here the uncaught
`httpx.HTTPStatusError` — becomes a generic HTTP 500. -/
def smartMarketEndpoint (crop_name region : String) (o : POutcome)
    (geminiText : Option String) : Except Nat MarketResponseM :=
  match analyzeMarket crop_name region o geminiText with
  | .ok res => .ok res
  | .error (.httpExc n) => .error n
  | .error .statusErr => .error 500

/-! ## The profit pipeline (`profit_prediction.py` 33-54 and 308-436)

Python float arithmetic is modelled over the rationals; `str(int(x))` is
`toString (pyTrunc x)` and `f"x:.1f"` is `fmt1`, a fixed-point rendering
with round-half-to-even, exact on the decimally representable values the
modelled scenarios produce.  The narrative prose fields (`analysis`,
`risk_assessment`, `market_outlook`) are log-style text no claim concerns
and are omitted from the response structure. -/

structure PriceRange where
  min : Nat
  max : Nat

/-- Model of Python `str.lower` on the ASCII fragment. -/
def pyLower (s : String) : String := String.mk (s.data.map Char.toLower)

/-- `get_market_price_range` (`profit_prediction.py` 33-54); the `unit` value
is `"per quintal"` for every row. -/
def getMarketPriceRange (crop_name : String) : PriceRange :=
  let c := pyLower crop_name
  if c = "rice" then ⟨1800, 2500⟩
  else if c = "wheat" then ⟨2000, 2400⟩
  else if c = "maize" then ⟨1500, 2100⟩
  else if c = "sugarcane" then ⟨280, 350⟩
  else if c = "cotton" then ⟨5000, 6000⟩
  else if c = "groundnut" then ⟨4500, 5500⟩
  else if c = "soybean" then ⟨3500, 4200⟩
  else if c = "mustard" then ⟨4000, 5000⟩
  else if c = "potato" then ⟨1000, 1500⟩
  else if c = "tomato" then ⟨1200, 3000⟩
  else if c = "onion" then ⟨1500, 3500⟩
  else if c = "chili" then ⟨6000, 10000⟩
  else if c = "turmeric" then ⟨6500, 8500⟩
  else if c = "banana" then ⟨2500, 4000⟩
  else if c = "mango" then ⟨4000, 8000⟩
  else ⟨2000, 3000⟩

/-- The `market_price_range` dictionary stored on the response. -/
def priceRangeJson (pr : PriceRange) : Json :=
  Json.jobj [("min", .jnum pr.min), ("max", .jnum pr.max), ("unit", .jstr "per quintal")]

/-- Floor of a rational, computed from its reduced fraction (the denominator
is positive, so Euclidean division of the numerator is the floor). -/
def qfloor (q : ℚ) : ℤ := Int.ediv q.num q.den

/-- Absolute value of a rational, executably. -/
def qabs (q : ℚ) : ℚ := if q < 0 then -q else q

/-- Python `int()` truncation toward zero on the rational model of a float. -/
def pyTrunc (q : ℚ) : ℤ := if 0 ≤ q then qfloor q else -(qfloor (-q))

/-- Round half to even to an integer. -/
def rhe (q : ℚ) : ℤ :=
  let f := qfloor q
  let r := q - f
  if r < 1 / 2 then f else if 1 / 2 < r then f + 1 else if f % 2 = 0 then f else f + 1

/-- Model of `f"x:.1f"`: one fractional digit, round half to even, sign kept
in front (exact for decimally representable values). -/
def fmt1 (q : ℚ) : String :=
  let n := (rhe (qabs q * 10)).toNat
  let s := toString (n / 10) ++ "." ++ toString (n % 10)
  if q < 0 then "-" ++ s else s

/-- The three generic `risk_factors` entries of the expansion-failure branch
(`profit_prediction.py` 395-399). -/
def profitDefaultRiskFactors : Json :=
  .jarr [
    .jobj [("factor", .jstr "Market Price Volatility"), ("level", .jstr "Medium"),
           ("mitigation", .jstr "Monitor market trends and consider forward contracts")],
    .jobj [("factor", .jstr "Weather Risk"), ("level", .jstr "High"),
           ("mitigation", .jstr "Use crop insurance and drought-resistant varieties")],
    .jobj [("factor", .jstr "Input Cost Inflation"), ("level", .jstr "Medium"),
           ("mitigation", .jstr "Bulk purchase of inputs and efficient resource management")]]

structure ProfitRespM where
  estimated_revenue : Json
  estimated_profit : Json
  roi : Json
  risk_factors : Json
  market_price_range : Json
  sources : List Json

/-- The `for key, value in expanded_data.items(): if key in response:` update
loop (`profit_prediction.py` 377-381) restricted to the modelled response
keys, followed by `response["sources"].append("gemini")`.  When the expanded
document itself carries a `"sources"` key, the loop first replaces the
response's list with that value; `.append` then only succeeds on a list —
on any other value it raises `AttributeError` (returned here as `none`),
which the outer handler turns into the fallback-calculation response. -/
def applyExpandedUpdate (r : ProfitRespM) (d : Json) : Option ProfitRespM :=
  let r1 : ProfitRespM :=
    { r with
      estimated_revenue := (d.getKey? "estimated_revenue").getD r.estimated_revenue,
      estimated_profit := (d.getKey? "estimated_profit").getD r.estimated_profit,
      roi := (d.getKey? "roi").getD r.roi,
      risk_factors := (d.getKey? "risk_factors").getD r.risk_factors,
      market_price_range := (d.getKey? "market_price_range").getD r.market_price_range }
  match d.getKey? "sources" with
  | none => some { r1 with sources := r1.sources ++ [.jstr "gemini"] }
  | some (.jarr xs) => some { r1 with sources := xs ++ [.jstr "gemini"] }
  | some _ => none

/-- `predict_crop_profit` (`profit_prediction.py` 308-436).  The fetch result
and the expansion response text are the provider parameters; `raisedE` covers
the case where the refine or fetch step raised and the outer `except` handler
(lines 402-425) built the `fallback_calculation` response, and `raisedH`
(the fetch's uncaught `httpx.HTTPStatusError`) lands in the same
`except Exception` handler.  The guard
`if not perplexity_data:` (line 353) fires both on a `None` fetch result and
on a fetched document that is Python-falsy (an empty dict), so the `ok`
branch repeats the numeric fallback when `jsonFalsy` holds. -/
def predictCropProfit (crop_name : String) (expected_yield total_cost : ℚ)
    (fetch : FetchResult) (geminiText : Option String) : ProfitRespM :=
  let pr := getMarketPriceRange crop_name
  let avg : ℚ := ((pr.min : ℚ) + (pr.max : ℚ)) / 2
  let base : ProfitRespM :=
    { estimated_revenue := .jstr "0", estimated_profit := .jstr "0", roi := .jstr "0",
      risk_factors := .jarr [], market_price_range := priceRangeJson pr, sources := [] }
  let revenue := expected_yield * avg
  let profit := revenue - total_cost
  match fetch with
  | .raisedE | .raisedH =>
    let roi : ℚ := if total_cost > 0 then profit / total_cost * 100 else 1
    { base with
      estimated_revenue := .jstr (toString (pyTrunc revenue)),
      estimated_profit := .jstr (toString (pyTrunc profit)),
      roi := .jstr (fmt1 roi),
      sources := [.jstr "fallback_calculation"] }
  | .failureN =>
    let roi : ℚ := if total_cost > 0 then profit / total_cost * 100 else 0
    { base with
      estimated_revenue := .jstr (toString (pyTrunc revenue)),
      estimated_profit := .jstr (toString (pyTrunc profit)),
      roi := .jstr (fmt1 roi),
      sources := [.jstr "market_data", .jstr "calculation"] }
  | .ok v =>
    if jsonFalsy v then
      let roi : ℚ := if total_cost > 0 then profit / total_cost * 100 else 0
      { base with
        estimated_revenue := .jstr (toString (pyTrunc revenue)),
        estimated_profit := .jstr (toString (pyTrunc profit)),
        roi := .jstr (fmt1 roi),
        sources := [.jstr "market_data", .jstr "calculation"] }
    else
    let withPerp := { base with sources := [Json.jstr "perplexity"] }
    match expandProfit geminiText with
    | some d =>
      (match applyExpandedUpdate withPerp d with
       | some r => r
       | none =>
         let roi : ℚ := if total_cost > 0 then profit / total_cost * 100 else 1
         { base with
           estimated_revenue := .jstr (toString (pyTrunc revenue)),
           estimated_profit := .jstr (toString (pyTrunc profit)),
           roi := .jstr (fmt1 roi),
           sources := [.jstr "fallback_calculation"] })
    | none =>
      let roi : ℚ := if total_cost > 0 then profit / total_cost * 100 else 0
      { withPerp with
        estimated_revenue := .jstr (toString (pyTrunc revenue)),
        estimated_profit := .jstr (toString (pyTrunc profit)),
        roi := .jstr (fmt1 roi),
        risk_factors := profitDefaultRiskFactors }

theorem qfloor_intCast (z : ℤ) : qfloor (z : ℚ) = z := by
  rw [qfloor, Rat.intCast_num, Rat.intCast_den]
  rw [show ((1 : ℕ) : ℤ) = 1 from rfl]
  exact Int.ediv_one _

theorem pyTrunc_intCast (z : ℤ) : pyTrunc (z : ℚ) = z := by
  rw [pyTrunc]
  by_cases h : 0 ≤ (z : ℚ)
  · rw [if_pos h, qfloor_intCast]
  · rw [if_neg h]
    have hc : -((z : ℤ) : ℚ) = ((-z : ℤ) : ℚ) := by push_cast; ring
    rw [hc, qfloor_intCast]
    omega

theorem rhe_intCast (z : ℤ) : rhe (z : ℚ) = z := by
  rw [rhe]
  simp only [qfloor_intCast]
  have h0 : (z : ℚ) - ((z : ℤ) : ℚ) = 0 := sub_self _
  rw [h0, if_pos (by norm_num)]

theorem fmt1_natCast (n : ℕ) : fmt1 ((n : ℕ) : ℚ) = toString n ++ "." ++ "0" := by
  rw [fmt1]
  have h1 : ¬ ((n : ℚ) < 0) := not_lt.mpr (Nat.cast_nonneg n)
  have h2 : qabs ((n : ℕ) : ℚ) = ((n : ℕ) : ℚ) := by rw [qabs, if_neg h1]
  have h3 : ((n : ℕ) : ℚ) * 10 = (((10 * n : ℕ) : ℤ) : ℚ) := by push_cast; ring
  have h4 : rhe ((((10 * n : ℕ) : ℤ)) : ℚ) = ((10 * n : ℕ) : ℤ) := rhe_intCast _
  rw [h2, h3, h4]
  have h5 : (((10 * n : ℕ) : ℤ)).toNat = 10 * n := Int.toNat_natCast _
  rw [h5]
  have h6 : 10 * n / 10 = n := by omega
  have h7 : 10 * n % 10 = 0 := by omega
  rw [h6, h7, if_neg h1]
  rw [show toString (0 : ℕ) = "0" from rfl]

/-! ## Python string helpers on character lists

The weather parser works on raw characters; these helpers model the Python
string methods it uses (`split`, `strip`, substring membership,
`startswith`, `endswith`, `lower`). -/

/-- Python whitespace stripped by `str.strip()`. -/
def pyWs (c : Char) : Bool :=
  c = ' ' || c = '\t' || c = '\n' || c = '\r' || c = '\x0b' || c = '\x0c'

/-- `str.strip()`. -/
def trimL (cs : List Char) : List Char :=
  ((cs.dropWhile pyWs).reverse.dropWhile pyWs).reverse

/-- `str.strip(chars)`: remove any of the given characters from both ends. -/
def stripSet (set : List Char) (cs : List Char) : List Char :=
  ((cs.dropWhile (fun c => set.contains c)).reverse.dropWhile (fun c => set.contains c)).reverse

/-- `str.startswith` on character lists. -/
def startsWithL : List Char → List Char → Bool
  | [], _ => true
  | _ :: _, [] => false
  | n :: ns, h :: hs => n = h && startsWithL ns hs

/-- Python substring membership (`needle in hay`). -/
def hasSubL : List Char → List Char → Bool
  | needle, [] => needle.isEmpty
  | needle, c :: cs => startsWithL needle (c :: cs) || hasSubL needle cs

/-- Substring membership on strings. -/
def hasSubS (needle hay : String) : Bool := hasSubL needle.data hay.data

/-- `str.split(sep)` for a nonempty separator: fuel-driven left-to-right
scan over non-overlapping occurrences, keeping empty segments as Python
does. -/
def splitOnLAux (sep : List Char) : Nat → List Char → List Char → List (List Char)
  | 0, cs, acc => [acc.reverse ++ cs]
  | _ + 1, [], acc => [acc.reverse]
  | fuel + 1, c :: cs, acc =>
    if startsWithL sep (c :: cs) then
      acc.reverse :: splitOnLAux sep fuel (List.drop sep.length (c :: cs)) []
    else
      splitOnLAux sep fuel cs (c :: acc)

/-- `str.split(sep)`. -/
def splitOnL (sep cs : List Char) : List (List Char) :=
  if sep.isEmpty then [cs] else splitOnLAux sep (cs.length + 1) cs []

/-- `str.endswith(":")` as used throughout the weather parser. -/
def endsWithColon (cs : List Char) : Bool :=
  match cs.getLast? with
  | some c => c = ':'
  | none => false

/-- `str.lower()` on character lists. -/
def toLowerL (cs : List Char) : List Char := cs.map Char.toLower

/-! ## The free-text weather parser and pipeline
(`weather_irrigation.py` 115-358)

The current-conditions scan (lines 176-238) walks the selected section line
by line through an `if`/`elif` chain, so at most one label is consumed per
line.  The daily-forecast and irrigation-schedule extraction (lines 239-295)
is narrative assembly no claim concerns and is omitted, as are the
`agricultural_metrics` defaults. -/

/-- The four current-conditions fields being accumulated. -/
structure CondState where
  temperature : List Char
  humidity : List Char
  wind_speed : List Char
  rainfall : List Char

/-- `line.split(lbl)[1].strip().split(";")[0].strip()`. -/
def labelValue (lbl : List Char) (line : List Char) : List Char :=
  trimL ((splitOnL [';'] (trimL ((splitOnL lbl line).getD 1 []))).headD [])

/-- Default field text. -/
def notAvailable : List Char := "Not available".data

/-- One line of the current-conditions scan: the `if`/`elif` chain of
`weather_irrigation.py` 196-228.  Each branch condition pairs the bare label
with its `"- "`-prefixed variant exactly as the source does (the second
disjunct is subsumed by the first), and the rainfall value additionally gets
`.strip(":")`. -/
def updateLine (st : CondState) (rawLine : List Char) : CondState :=
  let line := trimL rawLine
  if hasSubL "Temperature:".data line || hasSubL "- Temperature:".data line then
    { st with temperature :=
        if hasSubL "Temperature:".data line then labelValue "Temperature:".data line
        else labelValue "- Temperature:".data line }
  else if hasSubL "Humidity:".data line || hasSubL "- Humidity:".data line then
    { st with humidity :=
        if hasSubL "Humidity:".data line then labelValue "Humidity:".data line
        else labelValue "- Humidity:".data line }
  else if hasSubL "Wind:".data line || hasSubL "- Wind:".data line then
    { st with wind_speed :=
        if hasSubL "Wind:".data line then labelValue "Wind:".data line
        else labelValue "- Wind:".data line }
  else if hasSubL "Rainfall".data line || hasSubL "- Rainfall".data line then
    { st with rainfall :=
        if hasSubL "Rainfall".data line then stripSet [':'] (labelValue "Rainfall".data line)
        else stripSet [':'] (labelValue "- Rainfall".data line) }
  else st

/-- Selection of the current-conditions section (lines 176-186): the first
blank-line-separated section containing `"Current conditions"`, else the
first section. -/
def currentSection (content : List Char) : List Char :=
  let sections := splitOnL ('\n' :: '\n' :: []) content
  let cur := (sections.find? (fun s => hasSubL "Current conditions".data s)).getD []
  if cur.isEmpty then sections.headD [] else cur

/-- The current-conditions scan over the raw forecast text. -/
def parseCurrentConditions (content : String) : CondState :=
  (splitOnL ['\n'] (currentSection content.data)).foldl updateLine
    ⟨notAvailable, notAvailable, notAvailable, notAvailable⟩

/-- `line.strip("- *")`. -/
def stripDashStar (cs : List Char) : List Char := stripSet ['-', ' ', '*'] cs

/-- Collection of alert lines (lines 304-313): sections whose lowercase text
contains `"alert"` or `"warning"`, keeping stripped nonempty lines that do
not end in a colon and do not start with `"note"` or `"context"`. -/
def collectAlerts (sections : List (List Char)) : List (List Char) :=
  sections.foldl (fun acc sec =>
    let lowerSec := toLowerL sec
    if hasSubL "alert".data lowerSec || hasSubL "warning".data lowerSec then
      (splitOnL ['\n'] sec).foldl (fun acc2 rawLine =>
        let l := trimL (stripDashStar rawLine)
        if !l.isEmpty && !endsWithColon l &&
            !(startsWithL "note".data (toLowerL l) || startsWithL "context".data (toLowerL l)) then
          acc2 ++ [l]
        else acc2) acc
    else acc) []

/-- Collection of conservation tips and protective measures (lines 315-324):
keyword-matched sections, each stripped line bucketed by whether it mentions
`"conserv"` or `"water"`. -/
def collectTips (sections : List (List Char)) : List (List Char) × List (List Char) :=
  sections.foldl (fun acc sec =>
    let lowerSec := toLowerL sec
    if hasSubL "guidance".data lowerSec || hasSubL "field actions".data lowerSec ||
        hasSubL "practical".data lowerSec || hasSubL "protection".data lowerSec then
      (splitOnL ['\n'] sec).foldl (fun acc2 rawLine =>
        let l := trimL (stripDashStar rawLine)
        if !l.isEmpty && !endsWithColon l then
          if hasSubL "conserv".data (toLowerL l) || hasSubL "water".data (toLowerL l) then
            (acc2.1 ++ [l], acc2.2)
          else (acc2.1, acc2.2 ++ [l])
        else acc2) acc
    else acc) ([], [])

/-- Collection of soil-moisture notes (lines 326-332). -/
def collectNotes (sections : List (List Char)) : List (List Char) :=
  sections.foldl (fun acc sec =>
    if hasSubL "soil moisture".data (toLowerL sec) then
      (splitOnL ['\n'] sec).foldl (fun acc2 rawLine =>
        let l := trimL (stripDashStar rawLine)
        if !l.isEmpty && !endsWithColon l then acc2 ++ [l] else acc2) acc
    else acc) []

/-- The weather pipeline result; forecast/irrigation/metrics narrative
fields are omitted (no claim concerns them). -/
structure WeatherRespM where
  crop_name : String
  region : String
  temperature : String
  humidity : String
  wind_speed : String
  rainfall_last_24h : String
  risk_alerts : List String
  protective_measures : List String
  water_conservation_tips : List String
  notes : String
  sources : List String

/-- `generate_weather_and_irrigation_advice` (`weather_irrigation.py`
115-358): a missing weather document raises `WeatherIrrigationError`
(modelled as `Except.error` with its message); otherwise a result is always
assembled, with the empty-category placeholders of lines 347-355. -/
def generateWeatherAdvice (crop_name region : String) (fetched : Option String) :
    Except String WeatherRespM :=
  match fetched with
  | none => .error "Unable to fetch weather data. Please try again later."
  | some content =>
    let sections := splitOnL ('\n' :: '\n' :: []) content.data
    let st := parseCurrentConditions content
    let alerts := collectAlerts sections
    let tp := collectTips sections
    let notesL := collectNotes sections
    .ok {
      crop_name := crop_name
      region := region
      temperature := String.mk st.temperature
      humidity := String.mk st.humidity
      wind_speed := String.mk st.wind_speed
      rainfall_last_24h := String.mk st.rainfall
      risk_alerts :=
        if alerts.isEmpty then ["No specific risk alerts at this time"]
        else alerts.map String.mk
      protective_measures :=
        if tp.2.isEmpty then ["Monitor crop conditions regularly"]
        else tp.2.map String.mk
      water_conservation_tips :=
        if tp.1.isEmpty then ["Follow standard water conservation practices"]
        else tp.1.map String.mk
      notes :=
        if notesL.isEmpty then "Use standard agricultural practices appropriate for the season"
        else String.mk (List.intercalate [' '] notesL)
      sources := ["Perplexity Weather Analysis"] }

/-- `weather_irrigation_endpoint` (`api.py` 139-153): a
`WeatherIrrigationError` is not an `HTTPException`, so the generic handler
turns it into HTTP 500. -/
def weatherEndpoint (crop_name region : String) (fetched : Option String) :
    Except Nat WeatherRespM :=
  match generateWeatherAdvice crop_name region fetched with
  | .error _ => .error 500
  | .ok r => .ok r

/-! ## The scheme pipeline (`scheme_advisor.py` 269-331, `api.py` 238-287) -/

structure SchemeResponseM where
  matched_schemes : Json
  personalized_recommendation : Json
  next_steps : Json
  error : Option String
  sources : List String

/-- `analyze_schemes`: `refine` is the outcome of the query-refinement call
(`Except.error msg` models a raised `SchemeAdvisorError` with message
`msg`), `o` the per-attempt fetch behaviour, `exnMsg` the text of the
exception should the fetch raise (the `SchemeAdvisorError`'s wrapped
transport message, or the `HTTPStatusError`'s own text), and `geminiText`
the expander's response text.  A raised `SchemeAdvisorError` is caught by
the `except SchemeAdvisorError` handler (line 323); the fetch's uncaught
`httpx.HTTPStatusError` lands in the generic `except Exception` handler
(line 326), which prefixes "An unexpected error occurred: ". -/
def analyzeSchemes (refine : Except String Unit) (o : Nat → POutcome) (exnMsg : String)
    (geminiText : Option String) : SchemeResponseM :=
  let base : SchemeResponseM := ⟨.jarr [], .jstr "", .jstr "", none, []⟩
  match refine with
  | .error msg => { base with error := some msg }
  | .ok _ =>
    match (schemesFetch o).result with
    | .raisedE => { base with error := some ("Failed to query Perplexity: " ++ exnMsg) }
    | .raisedH => { base with error := some ("An unexpected error occurred: " ++ exnMsg) }
    | .failureN =>
      { base with error := some "Unable to fetch scheme data. Service temporarily unavailable." }
    | .ok v =>
      if jsonFalsy v then
        { base with error := some "Unable to fetch scheme data. Service temporarily unavailable." }
      else
        let withPerp := { base with sources := ["perplexity"] }
        match expandSchemeInfo geminiText with
        | some d =>
          { withPerp with
            matched_schemes := (d.getKey? "matched_schemes").getD (.jarr []),
            personalized_recommendation := (d.getKey? "personalized_recommendation").getD (.jstr ""),
            next_steps := (d.getKey? "next_steps").getD (.jstr ""),
            sources := ["perplexity", "gemini"] }
        | none =>
          { withPerp with
            matched_schemes := (v.getKey? "schemes").getD (.jarr []),
            personalized_recommendation :=
              .jstr "Based on your profile, consider reviewing the schemes listed above.",
            next_steps :=
              .jstr "Contact your local agricultural extension office for application assistance.",
            error := some "Unable to generate personalized recommendations." }

/-- The error check of `govt_schemes_endpoint` (`api.py` 271-279): a truthy
`error` whose lowercase text contains `"unable to fetch"` becomes HTTP 503;
any other response is returned as-is. -/
def govtSchemesEndpoint (resp : SchemeResponseM) : Except Nat SchemeResponseM :=
  match resp.error with
  | some msg =>
    if msg.isEmpty then .ok resp
    else if hasSubS "unable to fetch" (String.mk (toLowerL msg.data)) then .error 503
    else .ok resp
  | none => .ok resp

/-! ## The crop doctor (`crop_doctor.py` 20-107, `api.py` 171-236) -/

/-- `required_fields` of `analyze_crop_image` (`crop_doctor.py` 93). -/
def cropRequired : List String := ["disease_name", "severity", "recommended_treatment"]

/-- `analyze_crop_image` on the vision model's response text: with no brace
pair it does not report a failure but fabricates a document carrying the
whole raw text as the treatment (lines 81-87); a parse failure or missing
required field raises `ValueError`. -/
def analyzeCropImage (response_text : String) : Except String Json :=
  let cs := response_text.data
  match firstIdx lbrace cs, lastIdx rbrace cs with
  | some s, some e =>
    let slice := (cs.drop s).take (e + 1 - s)
    (match loads slice with
     | none => .error "Invalid JSON in model response"
     | some result =>
       if cropRequired.all (fun k => result.hasKey k) then .ok result
       else .error "Missing required field in response")
  | _, _ =>
    .ok (Json.jobj [("disease_name", .jstr "Analysis completed"),
                    ("severity", .jstr "Unable to determine"),
                    ("recommended_treatment", .jstr response_text)])

/-- `crop_doctor_endpoint` (`api.py` 197-229): a raised error becomes HTTP
500; a returned document is re-validated for the three required fields and
then returned as a success. -/
def cropDoctorEndpoint (response_text : String) : Except Nat Json :=
  match analyzeCropImage response_text with
  | .error _ => .error 500
  | .ok d => if cropRequired.all (fun k => d.hasKey k) then .ok d else .error 500

/-! ## Provider-order bookkeeping for the `sources` lists -/

/-- Index of the first occurrence of the provider name `s` among the
JSON-valued entries of a `sources` list. -/
def srcIndex (s : String) : List Json → Option Nat
  | [] => none
  | Json.jstr t :: xs => if t = s then some 0 else (srcIndex s xs).map (fun n => n + 1)
  | _ :: xs => (srcIndex s xs).map (fun n => n + 1)

/-- A Gemini expansion document for the profit pipeline carrying every
required field and, in addition, a `"sources"` key of its own that lists the
two providers in the opposite order. -/
def c9Kvs : List (String × Json) :=
  [("crop_name", .jstr "wheat"), ("region", .jstr "Punjab"),
   ("estimated_yield", .jstr "100 quintals"), ("market_price", .jstr "2200"),
   ("total_cost", .jstr "50000"), ("expected_revenue", .jstr "220000"),
   ("expected_profit", .jstr "170000"), ("risk_factors", .jarr []),
   ("recommendation", .jstr "Sell after harvest"), ("notes", .jstr "none"),
   ("sources", .jarr [.jstr "gemini", .jstr "perplexity"])]

/-- That document embedded in an expander response text. -/
def c9AdvText : String := "Sure: " ++ dumps (Json.jobj c9Kvs) ++ "."

/-- Raw forecast text whose current-conditions line joins the temperature
and humidity labels with a semicolon. -/
def c8OneLine : String := "Current conditions:\n- Temperature: 31°C; Humidity: 60%"

/-- The same readings with each label on a line of its own. -/
def c8TwoLines : String := "Current conditions:\n- Temperature: 31°C\n- Humidity: 60%"

/-! ## Claim theorems -/

/-- Claim C1: when the profit-prediction fetch stage yields no usable market
document (`query_perplexity_for_profit_data` returned `None`),
`predict_crop_profit` computes the numeric fallback from the static crop
price table: revenue is `expected_yield` times the average of the table's
min and max price, profit is revenue minus `total_cost`, and roi is
`profit / total_cost * 100` formatted to one decimal place, with the sentinel
value 0 (formatted `"0.0"`) whenever `total_cost` is 0; in particular for
crop `"wheat"`, `expected_yield` 100 and `total_cost` 50000 it returns
`estimated_revenue "220000"`, `estimated_profit "170000"` and `roi "340.0"`. -/
theorem C1_profit_numeric_fallback (crop : String) (y c : ℚ) (g : Option String) :
    ((predictCropProfit crop y c .failureN g).estimated_revenue
        = .jstr (toString (pyTrunc (y *
            ((((getMarketPriceRange crop).min : ℚ) + ((getMarketPriceRange crop).max : ℚ)) / 2))))
      ∧ (predictCropProfit crop y c .failureN g).estimated_profit
        = .jstr (toString (pyTrunc (y *
            ((((getMarketPriceRange crop).min : ℚ) + ((getMarketPriceRange crop).max : ℚ)) / 2) - c)))
      ∧ (predictCropProfit crop y c .failureN g).roi
        = .jstr (fmt1 (if c > 0 then
            (y * ((((getMarketPriceRange crop).min : ℚ) + ((getMarketPriceRange crop).max : ℚ)) / 2) - c)
              / c * 100 else 0))
      ∧ (c = 0 → (predictCropProfit crop y c .failureN g).roi = .jstr "0.0"))
    ∧ ((predictCropProfit "wheat" 100 50000 .failureN g).estimated_revenue = .jstr "220000"
      ∧ (predictCropProfit "wheat" 100 50000 .failureN g).estimated_profit = .jstr "170000"
      ∧ (predictCropProfit "wheat" 100 50000 .failureN g).roi = .jstr "340.0") := by
  constructor
  · refine ⟨rfl, rfl, rfl, ?_⟩
    intro hc0
    subst hc0
    have h3 : (predictCropProfit crop y 0 .failureN g).roi
        = .jstr (fmt1 (if (0 : ℚ) > 0 then
            (y * ((((getMarketPriceRange crop).min : ℚ) + ((getMarketPriceRange crop).max : ℚ)) / 2) - 0)
              / 0 * 100 else 0)) := rfl
    rw [h3, if_neg (by norm_num)]
    rw [show ((0 : ℚ)) = ((0 : ℕ) : ℚ) by norm_num, fmt1_natCast]
    rfl
  · refine ⟨?_, ?_, ?_⟩
    · have h : (predictCropProfit "wheat" 100 50000 .failureN g).estimated_revenue
          = .jstr (toString (pyTrunc ((100 : ℚ) * ((((2000 : ℕ) : ℚ) + ((2400 : ℕ) : ℚ)) / 2)))) := rfl
      rw [h, show (100 : ℚ) * ((((2000 : ℕ) : ℚ) + ((2400 : ℕ) : ℚ)) / 2) = ((220000 : ℤ) : ℚ)
        by norm_num, pyTrunc_intCast]
      rfl
    · have h : (predictCropProfit "wheat" 100 50000 .failureN g).estimated_profit
          = .jstr (toString (pyTrunc ((100 : ℚ) * ((((2000 : ℕ) : ℚ) + ((2400 : ℕ) : ℚ)) / 2) - 50000))) := rfl
      rw [h, show (100 : ℚ) * ((((2000 : ℕ) : ℚ) + ((2400 : ℕ) : ℚ)) / 2) - 50000 = ((170000 : ℤ) : ℚ)
        by norm_num, pyTrunc_intCast]
      rfl
    · have h : (predictCropProfit "wheat" 100 50000 .failureN g).roi
          = .jstr (fmt1 (if (50000 : ℚ) > 0 then
              ((100 : ℚ) * ((((2000 : ℕ) : ℚ) + ((2400 : ℕ) : ℚ)) / 2) - 50000) / 50000 * 100
              else 0)) := rfl
      rw [h, if_pos (by norm_num : (50000 : ℚ) > 0),
        show ((100 : ℚ) * ((((2000 : ℕ) : ℚ) + ((2400 : ℕ) : ℚ)) / 2) - 50000) / 50000 * 100
          = ((340 : ℕ) : ℚ) by norm_num, fmt1_natCast]
      rfl

/-- Witness for C1: the sentinel branch at `total_cost = 0`. -/
theorem C1_profit_numeric_fallback_witness :
    (predictCropProfit "wheat" 100 0 FetchResult.failureN none).roi = Json.jstr "0.0" :=
  (C1_profit_numeric_fallback "wheat" 100 0 none).1.2.2.2 rfl

/-- Counterexample to claim C4 as stated: in `"\x7dx\x7b"` the last closing
brace (index 0) comes before the first opening brace (index 2), yet the
extractor parses the empty slice and reports ParseError, not NotFound. -/
theorem C4_counterexample :
    extract "\x7dx\x7b" = ExtractResult.parseError
      ∧ ExtractResult.parseError ≠ ExtractResult.notFound :=
  ⟨rfl, fun h => nomatch h⟩

/-- Claim C4 (amended): the structured extractor returns NotFound — and,
being a total function, never raises — exactly when the input has no opening
brace or no closing brace; when both exist but the last closing brace comes
strictly before the first opening brace the degenerate slice fails to parse
and the result is ParseError (`at` cannot occur, no character is both
braces); and a brace pair whose slice is invalid JSON also yields ParseError,
a result distinct from NotFound. -/
theorem C4_extractor_not_found :
    (∀ s : String, extract s = ExtractResult.notFound ↔
      (firstIdx lbrace s.data = none ∨ lastIdx rbrace s.data = none))
    ∧ (∀ (s : String) (i e : Nat), firstIdx lbrace s.data = some i →
        lastIdx rbrace s.data = some e → e < i →
        extract s = ExtractResult.parseError)
    ∧ (∀ (s : String) (i e : Nat), firstIdx lbrace s.data = some i →
        lastIdx rbrace s.data = some e →
        loads ((s.data.drop i).take (e + 1 - i)) = none →
        extract s = ExtractResult.parseError) := by
  refine ⟨?_, ?_, ?_⟩
  · intro s
    constructor
    · intro h
      by_cases h1 : firstIdx lbrace s.data = none
      · exact Or.inl h1
      · by_cases h2 : lastIdx rbrace s.data = none
        · exact Or.inr h2
        · exfalso
          obtain ⟨i, hi⟩ := Option.ne_none_iff_exists'.mp h1
          obtain ⟨e, he⟩ := Option.ne_none_iff_exists'.mp h2
          rw [extract] at h
          simp only [hi, he] at h
          cases hl : loads ((s.data.drop i).take (e + 1 - i)) with
          | none => rw [hl] at h; exact absurd h (by simp)
          | some w => rw [hl] at h; exact absurd h (by simp)
    · intro h
      rw [extract]
      rcases h with h | h
      · rw [h]
      · rw [h]
        cases firstIdx lbrace s.data <;> rfl
  · intro s i e hi he hlt
    have h0 : e + 1 - i = 0 := by omega
    rw [extract]
    simp only [hi, he, h0, List.take_zero]
    rfl
  · intro s i e hi he hl
    rw [extract]
    simp only [hi, he, hl]

/-- Witness for C4's amended statement: `"\x7dx\x7b"` instantiates the
before-case, `"\x7bbad\x7d"` the invalid-slice case. -/
theorem C4_extractor_not_found_witness :
    extract "\x7dx\x7b" = ExtractResult.parseError
      ∧ extract "\x7bbad\x7d" = ExtractResult.parseError
      ∧ extract "no braces at all" = ExtractResult.notFound :=
  ⟨C4_extractor_not_found.2.1 "\x7dx\x7b" 2 0 rfl rfl (by omega),
   C4_extractor_not_found.2.2 "\x7bbad\x7d" 0 4 rfl rfl rfl,
   (C4_extractor_not_found.1 "no braces at all").mpr (Or.inl rfl)⟩

/-- Claim C5: for every text consisting of one serialized wellformed mapping
embedded in prose with no brace characters, the extractor returns that
mapping unchanged (serialize, embed, extract, compare equal). -/
theorem C5_extractor_roundtrip (kvs : List (String × Json)) (pre suf : String)
    (hgood : goodMembers kvs = true)
    (hkeys : (kvs.map Prod.fst).Nodup)
    (hpre1 : lbrace ∉ pre.data) (hpre2 : rbrace ∉ pre.data)
    (hsuf1 : lbrace ∉ suf.data) (hsuf2 : rbrace ∉ suf.data) :
    extract (pre ++ dumps (Json.jobj kvs) ++ suf) = ExtractResult.ok (Json.jobj kvs) :=
  extract_embedded kvs pre suf hgood hpre1 hsuf2

/-- Witness for C5 at a concrete mapping and prose. -/
theorem C5_extractor_roundtrip_witness :
    extract ("Here is the data: " ++
        dumps (Json.jobj [("recommended_action", Json.jstr "sell"), ("confidence", Json.jnum 1)]) ++
        " hope this helps.")
      = ExtractResult.ok
          (Json.jobj [("recommended_action", Json.jstr "sell"), ("confidence", Json.jnum 1)]) :=
  C5_extractor_roundtrip
    [("recommended_action", Json.jstr "sell"), ("confidence", Json.jnum 1)]
    "Here is the data: " " hope this helps."
    rfl (by decide) (by decide) (by decide) (by decide) (by decide)

/-- Claim C7: the profit advice expander returns `None` for every provider
response that is an exception, empty text, text with no extractable JSON,
malformed JSON, a document missing any required field, or a `risk_factors`
that is not a list; a document comes back only when extraction succeeded and
every required field is present with the required shape (never a partial
document, and the surrounding `try` means nothing is raised — the model is a
total function). -/
theorem C7_advice_expander (t : String) (v d : Json) :
    (expandProfit none = none)
    ∧ (expandProfit (some "") = none)
    ∧ (extract t = ExtractResult.notFound → expandProfit (some t) = none)
    ∧ (extract t = ExtractResult.parseError → expandProfit (some t) = none)
    ∧ (extract t = ExtractResult.ok v →
        profitExpandRequired.all (fun k => v.hasKey k) = false → expandProfit (some t) = none)
    ∧ (extract t = ExtractResult.ok v →
        (∀ xs, v.getKey? "risk_factors" ≠ some (Json.jarr xs)) → expandProfit (some t) = none)
    ∧ (expandProfit (some t) = some d →
        extract t = ExtractResult.ok d
          ∧ profitExpandRequired.all (fun k => d.hasKey k) = true
          ∧ ∃ xs, d.getKey? "risk_factors" = some (Json.jarr xs)) := by
  refine ⟨rfl, rfl, ?_, ?_, ?_, ?_, ?_⟩
  · intro h
    by_cases ht : t = "" <;> simp [expandProfit, ht, h]
  · intro h
    by_cases ht : t = "" <;> simp [expandProfit, ht, h]
  · intro h hmiss
    by_cases ht : t = "" <;> simp [expandProfit, ht, h, hmiss]
  · intro h hnl
    by_cases ht : t = ""
    · simp [expandProfit, ht]
    · simp only [expandProfit, ht, if_false, h]
      split
      · rename_i heq
        cases hk : v.getKey? "risk_factors" with
        | none => simp [hk]
        | some w =>
          cases w with
          | jarr xs => exact absurd hk (hnl xs)
          | jnull => simp [hk]
          | jbool b => simp [hk]
          | jnum n => simp [hk]
          | jstr s => simp [hk]
          | jobj kvs => simp [hk]
      · rfl
  · intro h
    by_cases ht : t = ""
    · rw [ht] at h
      simp [expandProfit] at h
    · cases hx : extract t with
      | notFound =>
        have h0 : expandProfit (some t) = none := by simp [expandProfit, ht, hx]
        rw [h0] at h
        exact absurd h (by simp)
      | parseError =>
        have h0 : expandProfit (some t) = none := by simp [expandProfit, ht, hx]
        rw [h0] at h
        exact absurd h (by simp)
      | ok v1 =>
        by_cases hall : profitExpandRequired.all (fun k => v1.hasKey k) = true
        · cases hk : v1.getKey? "risk_factors" with
          | none =>
            have h0 : expandProfit (some t) = none := by
              simp [expandProfit, ht, hx, hall, hk]
            rw [h0] at h
            exact absurd h (by simp)
          | some w =>
            cases w with
            | jarr xs =>
              have h0 : expandProfit (some t) = some v1 := by
                simp [expandProfit, ht, hx, hall, hk]
              rw [h0] at h
              rw [Option.some.injEq] at h
              subst h
              exact ⟨rfl, hall, xs, hk⟩
            | jnull =>
              have h0 : expandProfit (some t) = none := by
                simp [expandProfit, ht, hx, hall, hk]
              rw [h0] at h
              exact absurd h (by simp)
            | jbool b =>
              have h0 : expandProfit (some t) = none := by
                simp [expandProfit, ht, hx, hall, hk]
              rw [h0] at h
              exact absurd h (by simp)
            | jnum n =>
              have h0 : expandProfit (some t) = none := by
                simp [expandProfit, ht, hx, hall, hk]
              rw [h0] at h
              exact absurd h (by simp)
            | jstr s1 =>
              have h0 : expandProfit (some t) = none := by
                simp [expandProfit, ht, hx, hall, hk]
              rw [h0] at h
              exact absurd h (by simp)
            | jobj kvs =>
              have h0 : expandProfit (some t) = none := by
                simp [expandProfit, ht, hx, hall, hk]
              rw [h0] at h
              exact absurd h (by simp)
        · have h0 : expandProfit (some t) = none := by
            simp [expandProfit, ht, hx, hall]
          rw [h0] at h
          exact absurd h (by simp)

/-- Witness for C7: a response missing required fields collapses to `None`. -/
theorem C7_advice_expander_witness :
    expandProfit (some "\x7b\"crop_name\":\"wheat\"\x7d") = none :=
  (C7_advice_expander "\x7b\"crop_name\":\"wheat\"\x7d"
      (Json.jobj [("crop_name", Json.jstr "wheat")]) Json.jnull).2.2.2.2.1
    rfl rfl

/-- Claim C10: when the vision model's response text has no brace pair,
`analyze_crop_image` does not report an extraction failure but returns a
synthetic document with `disease_name "Analysis completed"`, `severity
"Unable to determine"` and the entire raw text as `recommended_treatment`,
and the `/crop-doctor` endpoint turns it into a success response whose
treatment field is the unparsed prose. -/
theorem C10_crop_doctor_no_brace (s : String)
    (h : firstIdx lbrace s.data = none ∨ lastIdx rbrace s.data = none) :
    analyzeCropImage s = Except.ok (Json.jobj
        [("disease_name", Json.jstr "Analysis completed"),
         ("severity", Json.jstr "Unable to determine"),
         ("recommended_treatment", Json.jstr s)])
    ∧ cropDoctorEndpoint s = Except.ok (Json.jobj
        [("disease_name", Json.jstr "Analysis completed"),
         ("severity", Json.jstr "Unable to determine"),
         ("recommended_treatment", Json.jstr s)]) := by
  have ha : analyzeCropImage s = Except.ok (Json.jobj
      [("disease_name", Json.jstr "Analysis completed"),
       ("severity", Json.jstr "Unable to determine"),
       ("recommended_treatment", Json.jstr s)]) := by
    rw [analyzeCropImage]
    rcases h with h | h
    · rw [h]
    · rw [h]
      cases firstIdx lbrace s.data <;> rfl
  refine ⟨ha, ?_⟩
  rw [cropDoctorEndpoint, ha]
  rfl

/-- Witness for C10 on prose with no braces. -/
theorem C10_crop_doctor_no_brace_witness :
    cropDoctorEndpoint "The leaf looks healthy overall." = Except.ok (Json.jobj
        [("disease_name", Json.jstr "Analysis completed"),
         ("severity", Json.jstr "Unable to determine"),
         ("recommended_treatment", Json.jstr "The leaf looks healthy overall.")]) :=
  (C10_crop_doctor_no_brace "The leaf looks healthy overall." (Or.inl rfl)).2

/-- Counterexample to claim C2 as stated: in the profit fetch, a document
missing a required section is not retried like a transport failure — on the
very first attempt it is returned as-is; after exhausting all attempts on
malformed JSON the fetch raises (`ProfitPredictionError`) instead of
returning the `None` failure value, because `json.JSONDecodeError` sits in
the same `except` clause as the transport errors; and a non-2xx status — a
transport failure in the spec's taxonomy — is not retried at all: both
fetches abort after exactly one attempt with no backoff sleep, raising
`httpx.HTTPStatusError` uncaught past the `except` tuple. -/
theorem C2_counterexample :
    ((profitFetch (fun _ => POutcome.content "\x7bbad\x7d")).result = FetchResult.raisedE
      ∧ FetchResult.raisedE ≠ FetchResult.failureN)
    ∧ ((profitFetch (fun _ => POutcome.content "\x7b\"market_data\":1\x7d")).result
          = FetchResult.ok (Json.jobj [("market_data", Json.jnum 1)])
      ∧ (profitFetch (fun _ => POutcome.content "\x7b\"market_data\":1\x7d")).attempts = 1
      ∧ profitMissing (Json.jobj [("market_data", Json.jnum 1)]) = true)
    ∧ (profitFetch (fun _ => POutcome.httpStatus) = ⟨FetchResult.raisedH, 1, []⟩
      ∧ schemesFetch (fun _ => POutcome.httpStatus) = ⟨FetchResult.raisedH, 1, []⟩
      ∧ (1 : Nat) ≠ 3) :=
  ⟨⟨rfl, fun h => nomatch h⟩, ⟨rfl, rfl, rfl⟩, rfl, rfl, by omega⟩

/-- Claim C2 (amended): caught transport failures (`httpx.RequestError`),
malformed-JSON responses and responses with no extractable JSON are retried
uniformly (with a backoff sleep); but a non-2xx status — equally a transport
failure in the spec's taxonomy — is never retried: `raise_for_status()`
raises `httpx.HTTPStatusError`, which the `except` tuple does not catch, so
the loop aborts on its first occurrence with no sleep and no wrapping.  A
successfully parsed document is also never retried by the profit fetch —
missing a required section it is returned as-is on a non-final attempt and
yields `None` on the final attempt — while the scheme fetch does retry an
invalid document, skipping the backoff sleep.  After exhausting the
attempts, no-JSON and invalid-document outcomes return `None`, while caught
transport failures and parse failures raise a wrapped error. -/
theorem C2_retry_uniformity :
    (∀ (o : Nat → POutcome) (a k : Nat), o a = POutcome.exn →
      profitFetchAux o a (k + 2) = ⟨(profitFetchAux o (a + 1) (k + 1)).result,
        (profitFetchAux o (a + 1) (k + 1)).attempts + 1,
        2 ^ a :: (profitFetchAux o (a + 1) (k + 1)).sleeps⟩)
    ∧ (∀ (o : Nat → POutcome) (a k : Nat) (s : String), o a = POutcome.content s →
        extract s = ExtractResult.parseError →
        profitFetchAux o a (k + 2) = ⟨(profitFetchAux o (a + 1) (k + 1)).result,
          (profitFetchAux o (a + 1) (k + 1)).attempts + 1,
          2 ^ a :: (profitFetchAux o (a + 1) (k + 1)).sleeps⟩)
    ∧ (∀ (o : Nat → POutcome) (a k : Nat) (s : String), o a = POutcome.content s →
        extract s = ExtractResult.notFound →
        profitFetchAux o a (k + 2) = ⟨(profitFetchAux o (a + 1) (k + 1)).result,
          (profitFetchAux o (a + 1) (k + 1)).attempts + 1,
          2 ^ a :: (profitFetchAux o (a + 1) (k + 1)).sleeps⟩)
    ∧ (∀ (o : Nat → POutcome) (a k : Nat) (s : String) (v : Json), o a = POutcome.content s →
        extract s = ExtractResult.ok v → profitMissing v = true →
        profitFetchAux o a (k + 2) = ⟨FetchResult.ok v, 1, []⟩)
    ∧ (∀ (o : Nat → POutcome) (a : Nat) (s : String) (v : Json), o a = POutcome.content s →
        extract s = ExtractResult.ok v → profitMissing v = true →
        profitFetchAux o a 1 = ⟨FetchResult.failureN, 1, []⟩)
    ∧ (∀ (o : Nat → POutcome) (a : Nat), o a = POutcome.exn →
        profitFetchAux o a 1 = ⟨FetchResult.raisedE, 1, []⟩)
    ∧ (∀ (o : Nat → POutcome) (a : Nat) (s : String), o a = POutcome.content s →
        extract s = ExtractResult.parseError →
        profitFetchAux o a 1 = ⟨FetchResult.raisedE, 1, []⟩)
    ∧ (∀ (o : Nat → POutcome) (a : Nat) (s : String), o a = POutcome.content s →
        extract s = ExtractResult.notFound →
        profitFetchAux o a 1 = ⟨FetchResult.failureN, 1, []⟩)
    ∧ (∀ (o : Nat → POutcome) (a k : Nat) (s : String) (v : Json), o a = POutcome.content s →
        extract s = ExtractResult.ok v → schemesValid v = false →
        schemesFetchAux o a (k + 2) = ⟨(schemesFetchAux o (a + 1) (k + 1)).result,
          (schemesFetchAux o (a + 1) (k + 1)).attempts + 1,
          (schemesFetchAux o (a + 1) (k + 1)).sleeps⟩)
    ∧ (∀ (o : Nat → POutcome) (a : Nat) (s : String) (v : Json), o a = POutcome.content s →
        extract s = ExtractResult.ok v → schemesValid v = false →
        schemesFetchAux o a 1 = ⟨FetchResult.failureN, 1, []⟩)
    ∧ (∀ (o : Nat → POutcome) (a : Nat), o a = POutcome.exn →
        schemesFetchAux o a 1 = ⟨FetchResult.raisedE, 1, []⟩)
    ∧ (∀ (o : Nat → POutcome) (a : Nat) (s : String), o a = POutcome.content s →
        extract s = ExtractResult.parseError →
        schemesFetchAux o a 1 = ⟨FetchResult.raisedE, 1, []⟩)
    ∧ (∀ (o : Nat → POutcome) (a k : Nat), o a = POutcome.httpStatus →
        profitFetchAux o a (k + 1) = ⟨FetchResult.raisedH, 1, []⟩)
    ∧ (∀ (o : Nat → POutcome) (a k : Nat), o a = POutcome.httpStatus →
        schemesFetchAux o a (k + 1) = ⟨FetchResult.raisedH, 1, []⟩) := by
  refine ⟨?_, ?_, ?_, ?_, ?_, ?_, ?_, ?_, ?_, ?_, ?_, ?_, ?_, ?_⟩
  · intro o a k h
    simp [profitFetchAux, h]
  · intro o a k s h hx
    simp [profitFetchAux, h, hx]
  · intro o a k s h hx
    simp [profitFetchAux, h, hx]
  · intro o a k s v h hx _
    simp [profitFetchAux, h, hx]
  · intro o a s v h hx hm
    simp [profitFetchAux, h, hx, hm]
  · intro o a h
    simp [profitFetchAux, h]
  · intro o a s h hx
    simp [profitFetchAux, h, hx]
  · intro o a s h hx
    simp [profitFetchAux, h, hx]
  · intro o a k s v h hx hv
    simp [schemesFetchAux, h, hx, hv]
  · intro o a s v h hx hv
    simp [schemesFetchAux, h, hx, hv]
  · intro o a h
    simp [schemesFetchAux, h]
  · intro o a s h hx
    simp [schemesFetchAux, h, hx]
  · intro o a k h
    simp [profitFetchAux, h]
  · intro o a k h
    simp [schemesFetchAux, h]

/-- Witness for C2's amended statement: a partial document is returned on
the first of three attempts, yields `None` alone on a final attempt, a
caught transport failure on a final attempt raises, and a non-2xx status on
the first of three attempts aborts at once. -/
theorem C2_retry_uniformity_witness :
    profitFetchAux (fun _ => POutcome.content "\x7b\"market_data\":1\x7d") 0 2
        = ⟨FetchResult.ok (Json.jobj [("market_data", Json.jnum 1)]), 1, []⟩
    ∧ profitFetchAux (fun _ => POutcome.content "\x7b\"market_data\":1\x7d") 2 1
        = ⟨FetchResult.failureN, 1, []⟩
    ∧ profitFetchAux (fun _ => POutcome.exn) 0 1 = ⟨FetchResult.raisedE, 1, []⟩
    ∧ profitFetchAux (fun _ => POutcome.httpStatus) 0 3 = ⟨FetchResult.raisedH, 1, []⟩ :=
  ⟨C2_retry_uniformity.2.2.2.1 (fun _ => POutcome.content "\x7b\"market_data\":1\x7d") 0 0
      "\x7b\"market_data\":1\x7d" (Json.jobj [("market_data", Json.jnum 1)]) rfl rfl rfl,
   C2_retry_uniformity.2.2.2.2.1 (fun _ => POutcome.content "\x7b\"market_data\":1\x7d") 2
      "\x7b\"market_data\":1\x7d" (Json.jobj [("market_data", Json.jnum 1)]) rfl rfl rfl,
   C2_retry_uniformity.2.2.2.2.2.1 (fun _ => POutcome.exn) 0 rfl,
   C2_retry_uniformity.2.2.2.2.2.2.2.2.2.2.2.2.1 (fun _ => POutcome.httpStatus) 0 2 rfl⟩

/-- Helper: one failing step of the weather fetch loop, whatever the failure
kind. -/
theorem weatherFetchAux_fail (w : Nat → WOutcome) (a k : Nat)
    (h : (w a).isFail = true) :
    weatherFetchAux w a (k + 1) =
      if k = 0 then ⟨none, 1, []⟩
      else ⟨(weatherFetchAux w (a + 1) k).result, (weatherFetchAux w (a + 1) k).attempts + 1,
            2 ^ a :: (weatherFetchAux w (a + 1) k).sleeps⟩ := by
  cases hw : w a with
  | ok200 c => rw [hw] at h; exact absurd h (by simp [WOutcome.isFail])
  | badStatus => simp [weatherFetchAux, hw]
  | timeoutE => simp [weatherFetchAux, hw]
  | otherE => simp [weatherFetchAux, hw]

/-- Counterexample to claim C6 as stated: against a provider that fails
every attempt with a non-2xx status — a transport failure in the spec's
taxonomy — the scheme fetch performs exactly one attempt, not
`max_attempts` = 3, with no backoff sleeps: `raise_for_status()` raises
`httpx.HTTPStatusError`, which the `except` tuple does not catch, so the
loop aborts instead of retrying. -/
theorem C6_counterexample :
    schemesFetch (fun _ => POutcome.httpStatus) = ⟨FetchResult.raisedH, 1, []⟩
    ∧ (1 : Nat) ≠ 3 := ⟨rfl, by omega⟩

/-- Claim C6 (amended): against a provider whose every failure is caught by
the `except` tuple, the retrying fetch performs exactly 3 attempts, sleeps
`2 ^ attempt` seconds between consecutive attempts (the two increasing
backoff delays `[1, 2]` = `[2 ^ 0, 2 ^ 1]`), does not sleep after the final
attempt, and then reports failure; against a provider failing that way on
attempts 1-2 and succeeding on attempt 3 it performs exactly 3 attempts
with the same two delays and returns the successful document.  The weather
fetch keeps this schedule for every failure kind (it checks
`status_code == 200` by hand and catches every exception), but a non-2xx
status aborts the scheme fetch after exactly one attempt with no sleeps,
raising uncaught. -/
theorem C6_retry_schedule :
    (∀ o : Nat → POutcome, (∀ n, n < 3 → o n = POutcome.exn) →
      schemesFetch o = ⟨FetchResult.raisedE, 3, [1, 2]⟩)
    ∧ (∀ (o : Nat → POutcome) (s : String) (v : Json),
        o 0 = POutcome.exn → o 1 = POutcome.exn → o 2 = POutcome.content s →
        extract s = ExtractResult.ok v → schemesValid v = true →
        schemesFetch o = ⟨FetchResult.ok v, 3, [1, 2]⟩)
    ∧ (∀ w : Nat → WOutcome, (∀ n, n < 3 → (w n).isFail = true) →
        weatherFetch w = ⟨none, 3, [1, 2]⟩)
    ∧ (∀ (w : Nat → WOutcome) (c : String),
        (w 0).isFail = true → (w 1).isFail = true → w 2 = WOutcome.ok200 c →
        weatherFetch w = ⟨some c, 3, [1, 2]⟩)
    ∧ (∀ o : Nat → POutcome, o 0 = POutcome.httpStatus →
        schemesFetch o = ⟨FetchResult.raisedH, 1, []⟩) := by
  refine ⟨?_, ?_, ?_, ?_, ?_⟩
  · intro o h
    have h0 := h 0 (by omega)
    have h1 := h 1 (by omega)
    have h2 := h 2 (by omega)
    simp [schemesFetch, schemesFetchAux, h0, h1, h2]
  · intro o s v h0 h1 h2 hx hv
    simp [schemesFetch, schemesFetchAux, h0, h1, h2, hx, hv]
  · intro w h
    have h0 := weatherFetchAux_fail w 0 2 (h 0 (by omega))
    have h1 := weatherFetchAux_fail w 1 1 (h 1 (by omega))
    have h2 := weatherFetchAux_fail w 2 0 (h 2 (by omega))
    rw [weatherFetch, h0, if_neg (by omega), h1, if_neg (by omega), h2, if_pos rfl]
    rfl
  · intro w c h0f h1f h2
    have h0 := weatherFetchAux_fail w 0 2 h0f
    have h1 := weatherFetchAux_fail w 1 1 h1f
    rw [weatherFetch, h0, if_neg (by omega), h1, if_neg (by omega)]
    simp [weatherFetchAux, h2]
  · intro o h
    simp [schemesFetch, schemesFetchAux, h]

/-- Witness for C6's amended statement at concrete providers. -/
theorem C6_retry_schedule_witness :
    schemesFetch (fun _ => POutcome.exn) = ⟨FetchResult.raisedE, 3, [1, 2]⟩
    ∧ weatherFetch
        (fun n => if n < 2 then WOutcome.timeoutE else WOutcome.ok200 "Sunny report")
        = ⟨some "Sunny report", 3, [1, 2]⟩
    ∧ schemesFetch (fun _ => POutcome.httpStatus) = ⟨FetchResult.raisedH, 1, []⟩ :=
  ⟨C6_retry_schedule.1 (fun _ => POutcome.exn) (fun _ _ => rfl),
   C6_retry_schedule.2.2.2.1
      (fun n => if n < 2 then WOutcome.timeoutE else WOutcome.ok200 "Sunny report")
      "Sunny report" rfl rfl rfl,
   C6_retry_schedule.2.2.2.2 (fun _ => POutcome.httpStatus) rfl⟩

/-- Counterexample to claim C3 as stated: when the weather pipeline's first
grounded fetch fails entirely, the endpoint's generic handler converts the
raised `WeatherIrrigationError` into HTTP 500 (internal server error), not a
service-unavailable condition (503). -/
theorem C3_counterexample :
    weatherEndpoint "rice" "Punjab" none = Except.error 500 ∧ (500 : Nat) ≠ 503 :=
  ⟨rfl, by omega⟩

/-- Claim C3 (amended): every capability pipeline returns a result for every
provider behaviour — failure degrades to defaults or fallback text, never to
an empty result — except at a first-fetch failure, where the surfaced
condition varies by pipeline and by failure kind: the market pipeline raises
503 when its single fetch attempt yields no usable document, but a non-2xx
provider status escapes as an uncaught `httpx.HTTPStatusError` that the
endpoint masks as a generic 500; the weather pipeline's error reaches the
caller as a generic 500; the scheme pipeline yields 503 only when the fetch
returned no usable document, while both transport exhaustion (a raised
`SchemeAdvisorError`) and a first-attempt non-2xx status (the uncaught
`HTTPStatusError`) are masked as normal responses carrying an error message;
and the profit pipeline never surfaces the failure at all, returning its
numeric fallback with labelled sources. -/
theorem C3_pipeline_totality :
    (∀ (c r : String) (g : Option String),
        smartMarketEndpoint c r POutcome.exn g = Except.error 503)
    ∧ (∀ (c r : String) (g : Option String),
        smartMarketEndpoint c r POutcome.httpStatus g = Except.error 500)
    ∧ (∀ (c r s : String) (v : Json) (g : Option String),
        extract s = ExtractResult.ok v → jsonFalsy v = false →
        ∃ res, smartMarketEndpoint c r (POutcome.content s) g = Except.ok res)
    ∧ (∀ c r : String, weatherEndpoint c r none = Except.error 500)
    ∧ (∀ (c r s : String), ∃ res, weatherEndpoint c r (some s) = Except.ok res)
    ∧ (∀ (o : Nat → POutcome) (e : String) (g : Option String),
        (schemesFetch o).result = FetchResult.failureN →
        govtSchemesEndpoint (analyzeSchemes (.ok ()) o e g) = Except.error 503)
    ∧ (∀ (o : Nat → POutcome) (e : String) (g : Option String),
        (schemesFetch o).result = FetchResult.raisedE →
        hasSubS "unable to fetch"
          (String.mk (toLowerL ("Failed to query Perplexity: " ++ e).data)) = false →
        govtSchemesEndpoint (analyzeSchemes (.ok ()) o e g)
          = Except.ok (analyzeSchemes (.ok ()) o e g))
    ∧ (∀ (o : Nat → POutcome) (e : String) (g : Option String),
        (schemesFetch o).result = FetchResult.raisedH →
        hasSubS "unable to fetch"
          (String.mk (toLowerL ("An unexpected error occurred: " ++ e).data)) = false →
        govtSchemesEndpoint (analyzeSchemes (.ok ()) o e g)
          = Except.ok (analyzeSchemes (.ok ()) o e g))
    ∧ (∀ (crop : String) (y c : ℚ) (fetch : FetchResult) (g : Option String),
        (predictCropProfit crop y c fetch g).sources ≠ [])
    ∧ (∀ (crop : String) (y c : ℚ) (g : Option String),
        (predictCropProfit crop y c .failureN g).sources
          = [Json.jstr "market_data", Json.jstr "calculation"]) := by
  refine ⟨?_, ?_, ?_, ?_, ?_, ?_, ?_, ?_, ?_, ?_⟩
  · intro c r g
    rfl
  · intro c r g
    rfl
  · intro c r s v g hx ht
    cases hadv : askGeminiForAdvice g with
    | none =>
      exact ⟨⟨c, r, v, none, none, none, none, none, ["perplexity"]⟩,
        by simp [smartMarketEndpoint, analyzeMarket, marketFetch, hx, ht, hadv]⟩
    | some d =>
      exact ⟨⟨c, r, v, d.getKey? "recommended_action", d.getKey? "confidence",
          d.getKey? "rationale", d.getKey? "alternate_markets", d.getKey? "notes",
          ["perplexity", "gemini"]⟩,
        by simp [smartMarketEndpoint, analyzeMarket, marketFetch, hx, ht, hadv]⟩
  · intro c r
    rfl
  · intro c r s
    exact ⟨_, rfl⟩
  · intro o e g hf
    have h0 : analyzeSchemes (.ok ()) o e g =
        { matched_schemes := Json.jarr [], personalized_recommendation := Json.jstr "",
          next_steps := Json.jstr "", error :=
            some "Unable to fetch scheme data. Service temporarily unavailable.",
          sources := [] } := by
      rw [analyzeSchemes]
      rw [hf]
    rw [h0]
    rfl
  · intro o e g hf hsub
    have h0 : analyzeSchemes (.ok ()) o e g =
        { matched_schemes := Json.jarr [], personalized_recommendation := Json.jstr "",
          next_steps := Json.jstr "", error := some ("Failed to query Perplexity: " ++ e),
          sources := [] } := by
      rw [analyzeSchemes]
      rw [hf]
    rw [h0, govtSchemesEndpoint]
    have hne : ("Failed to query Perplexity: " ++ e).isEmpty = false := by
      cases hemp : ("Failed to query Perplexity: " ++ e).isEmpty
      · rfl
      · exfalso
        rw [String.isEmpty_iff] at hemp
        have hlen := congrArg String.length hemp
        rw [String.length_append] at hlen
        rw [show ("Failed to query Perplexity: ").length = 28 from rfl] at hlen
        simp at hlen
    simp only [hne, Bool.false_eq_true, if_false, hsub, if_neg]
  · intro o e g hf hsub
    have h0 : analyzeSchemes (.ok ()) o e g =
        { matched_schemes := Json.jarr [], personalized_recommendation := Json.jstr "",
          next_steps := Json.jstr "", error := some ("An unexpected error occurred: " ++ e),
          sources := [] } := by
      rw [analyzeSchemes]
      rw [hf]
    rw [h0, govtSchemesEndpoint]
    have hne : ("An unexpected error occurred: " ++ e).isEmpty = false := by
      cases hemp : ("An unexpected error occurred: " ++ e).isEmpty
      · rfl
      · exfalso
        rw [String.isEmpty_iff] at hemp
        have hlen := congrArg String.length hemp
        rw [String.length_append] at hlen
        rw [show ("An unexpected error occurred: ").length = 30 from rfl] at hlen
        simp at hlen
    simp only [hne, Bool.false_eq_true, if_false, hsub, if_neg]
  · intro crop y c fetch g
    cases fetch with
    | raisedE => simp [predictCropProfit]
    | raisedH => simp [predictCropProfit]
    | failureN => simp [predictCropProfit]
    | ok v =>
      by_cases hv : jsonFalsy v
      · simp [predictCropProfit, hv]
      · cases hg : expandProfit g with
        | none => simp [predictCropProfit, hv, hg]
        | some d =>
          cases hu : d.getKey? "sources" with
          | none => simp [predictCropProfit, hv, hg, applyExpandedUpdate, hu]
          | some w =>
            cases w <;> simp [predictCropProfit, hv, hg, applyExpandedUpdate, hu]
  · intro crop y c g
    rfl

/-- Witness for C3's amended statement at concrete providers. -/
theorem C3_pipeline_totality_witness :
    smartMarketEndpoint "rice" "Punjab" POutcome.exn none = Except.error 503
    ∧ smartMarketEndpoint "rice" "Punjab" POutcome.httpStatus none = Except.error 500
    ∧ govtSchemesEndpoint (analyzeSchemes (.ok ()) (fun _ => POutcome.content "no json here")
        "timeout" none) = Except.error 503
    ∧ govtSchemesEndpoint (analyzeSchemes (.ok ()) (fun _ => POutcome.exn) "timeout" none)
        = Except.ok (analyzeSchemes (.ok ()) (fun _ => POutcome.exn) "timeout" none)
    ∧ govtSchemesEndpoint (analyzeSchemes (.ok ()) (fun _ => POutcome.httpStatus) "503 error"
        none)
        = Except.ok (analyzeSchemes (.ok ()) (fun _ => POutcome.httpStatus) "503 error" none)
    ∧ (predictCropProfit "rice" 10 100 FetchResult.raisedH none).sources ≠ [] :=
  ⟨C3_pipeline_totality.1 "rice" "Punjab" none,
   C3_pipeline_totality.2.1 "rice" "Punjab" none,
   C3_pipeline_totality.2.2.2.2.2.1 (fun _ => POutcome.content "no json here") "timeout" none
     rfl,
   C3_pipeline_totality.2.2.2.2.2.2.1 (fun _ => POutcome.exn) "timeout" none rfl (by decide),
   C3_pipeline_totality.2.2.2.2.2.2.2.1 (fun _ => POutcome.httpStatus) "503 error" none rfl
     (by decide),
   C3_pipeline_totality.2.2.2.2.2.2.2.2.1 "rice" 10 100 FetchResult.raisedH none⟩

/-- The profit expander accepts any embedded wellformed mapping that carries
the ten required fields with a list-valued `risk_factors`, and returns it
verbatim. -/
theorem expandProfit_embedded (kvs : List (String × Json)) (pre suf : String)
    (hgood : goodMembers kvs = true)
    (hpre : lbrace ∉ pre.data) (hsuf : rbrace ∉ suf.data)
    (hall : profitExpandRequired.all (fun k => (Json.jobj kvs).hasKey k) = true)
    (hrisk : ∃ xs, (Json.jobj kvs).getKey? "risk_factors" = some (Json.jarr xs)) :
    expandProfit (some (pre ++ dumps (Json.jobj kvs) ++ suf)) = some (Json.jobj kvs) := by
  obtain ⟨xs, hx⟩ := hrisk
  have he : extract (pre ++ dumps (Json.jobj kvs) ++ suf) = ExtractResult.ok (Json.jobj kvs) :=
    extract_embedded kvs pre suf hgood hpre hsuf
  have hlen : (dumps (Json.jobj kvs)).length = (serMembers kvs).length + 2 := by
    show (serJson (Json.jobj kvs)).length = _
    rw [serJson_obj]
    simp
  have hne : ¬ (pre ++ dumps (Json.jobj kvs) ++ suf) = "" := by
    intro h
    have h2 := congrArg String.length h
    rw [String.length_append, String.length_append, hlen] at h2
    simp at h2
  simp only [expandProfit, if_neg hne, he, hall, if_true, hx]

/-- Claim C9 counterexample: a profit-pipeline run where the fetched document
is fine and the Gemini expansion document carries a `"sources"` key of its
own.  The update loop overwrites the response's `["perplexity"]` with the
document's `["gemini", "perplexity"]` before the `append("gemini")`, so the
returned list puts the secondary provider first — the first occurrence of
`"gemini"` (index 0) precedes the first occurrence of `"perplexity"`
(index 1), violating the ordering invariant. -/
theorem C9_counterexample :
    (predictCropProfit "wheat" 100 50000 (FetchResult.ok (Json.jobj c9Kvs))
        (some c9AdvText)).sources
      = [Json.jstr "gemini", Json.jstr "perplexity", Json.jstr "gemini"]
    ∧ srcIndex "gemini"
        (predictCropProfit "wheat" 100 50000 (FetchResult.ok (Json.jobj c9Kvs))
          (some c9AdvText)).sources = some 0
    ∧ srcIndex "perplexity"
        (predictCropProfit "wheat" 100 50000 (FetchResult.ok (Json.jobj c9Kvs))
          (some c9AdvText)).sources = some 1 := by
  have hexp : expandProfit (some c9AdvText) = some (Json.jobj c9Kvs) :=
    expandProfit_embedded c9Kvs "Sure: " "." (by decide) (by decide) (by decide)
      (by decide) ⟨[], rfl⟩
  have hv : jsonFalsy (Json.jobj c9Kvs) = false := rfl
  have hp : (predictCropProfit "wheat" 100 50000 (FetchResult.ok (Json.jobj c9Kvs))
      (some c9AdvText)).sources
      = [Json.jstr "gemini", Json.jstr "perplexity", Json.jstr "gemini"] := by
    simp only [predictCropProfit, hv, Bool.false_eq_true, if_false, hexp, applyExpandedUpdate]
    rfl
  refine ⟨hp, ?_, ?_⟩
  · rw [hp]
    rfl
  · rw [hp]
    rfl

/-- Claim C9 (amended): the market and scheme pipelines do build `sources`
append-only — it is always one of `[]`, `["perplexity"]` and
`["perplexity", "gemini"]`, so the primary provider precedes the secondary
whenever both are present, and a fetch-only run yields exactly
`["perplexity"]`.  The profit pipeline keeps the invariant only when the
expansion document has no `"sources"` key of its own: then an expanded run
yields `["perplexity", "gemini"]` and an expansion failure leaves
`["perplexity"]`; a document-supplied `"sources"` list replaces the
response's before the append and its order is kept verbatim. -/
theorem C9_sources_order :
    (∀ (c r : String) (o : POutcome) (g : Option String) (res : MarketResponseM),
        analyzeMarket c r o g = Except.ok res →
        res.sources = ["perplexity"] ∨ res.sources = ["perplexity", "gemini"])
    ∧ (∀ (refi : Except String Unit) (o : Nat → POutcome) (e : String) (g : Option String),
        (analyzeSchemes refi o e g).sources = []
        ∨ (analyzeSchemes refi o e g).sources = ["perplexity"]
        ∨ (analyzeSchemes refi o e g).sources = ["perplexity", "gemini"])
    ∧ (∀ (crop : String) (y cost : ℚ) (v : Json) (g : Option String) (d : Json),
        jsonFalsy v = false → expandProfit g = some d → d.getKey? "sources" = none →
        (predictCropProfit crop y cost (FetchResult.ok v) g).sources
          = [Json.jstr "perplexity", Json.jstr "gemini"])
    ∧ (∀ (crop : String) (y cost : ℚ) (v : Json) (g : Option String),
        jsonFalsy v = false → expandProfit g = none →
        (predictCropProfit crop y cost (FetchResult.ok v) g).sources
          = [Json.jstr "perplexity"]) := by
  refine ⟨?_, ?_, ?_, ?_⟩
  · intro c r o g res h
    cases o with
    | exn => simp [analyzeMarket, marketFetch] at h
    | httpStatus => simp [analyzeMarket, marketFetch] at h
    | content s =>
      cases hx : extract s with
      | notFound => simp [analyzeMarket, marketFetch, hx] at h
      | parseError => simp [analyzeMarket, marketFetch, hx] at h
      | ok v =>
        by_cases ht : jsonFalsy v
        · simp [analyzeMarket, marketFetch, hx, ht] at h
        · cases hadv : askGeminiForAdvice g with
          | none =>
            simp only [analyzeMarket, marketFetch, hx, ht, Bool.false_eq_true, if_false,
              hadv, Except.ok.injEq] at h
            rw [← h]
            left
            rfl
          | some d =>
            simp only [analyzeMarket, marketFetch, hx, ht, Bool.false_eq_true, if_false,
              hadv, Except.ok.injEq] at h
            rw [← h]
            right
            rfl
  · intro refi o e g
    cases refi with
    | error msg => left; rw [analyzeSchemes]
    | ok u =>
      cases hres : (schemesFetch o).result with
      | raisedE => left; rw [analyzeSchemes, hres]
      | raisedH => left; rw [analyzeSchemes, hres]
      | failureN => left; rw [analyzeSchemes, hres]
      | ok v =>
        by_cases hv : jsonFalsy v
        · left
          simp [analyzeSchemes, hres, hv]
        · cases hexp : expandSchemeInfo g with
          | none =>
            right; left
            simp [analyzeSchemes, hres, hv, hexp]
          | some d =>
            right; right
            simp [analyzeSchemes, hres, hv, hexp]
  · intro crop y cost v g d hv hg hs
    simp only [predictCropProfit, hv, Bool.false_eq_true, if_false, hg,
      applyExpandedUpdate, hs]
    rfl
  · intro crop y cost v g hv hg
    simp only [predictCropProfit, hv, Bool.false_eq_true, if_false, hg]

/-- Witness for C9's amended statement at concrete providers: a market run
without expansion, a profit run whose expansion document has no `"sources"`
key, and a profit run whose expansion failed. -/
theorem C9_sources_order_witness :
    ((⟨"rice", "Punjab", Json.jobj [("a", Json.jnum 1)], none, none, none, none, none,
        ["perplexity"]⟩ : MarketResponseM).sources = ["perplexity"]
      ∨ (⟨"rice", "Punjab", Json.jobj [("a", Json.jnum 1)], none, none, none, none, none,
        ["perplexity"]⟩ : MarketResponseM).sources = ["perplexity", "gemini"])
    ∧ (predictCropProfit "wheat" 100 50000 (FetchResult.ok (Json.jstr "doc"))
        (some ("Data: " ++ dumps (Json.jobj (c9Kvs.take 10)) ++ "!"))).sources
        = [Json.jstr "perplexity", Json.jstr "gemini"]
    ∧ (predictCropProfit "wheat" 100 50000 (FetchResult.ok (Json.jstr "doc")) none).sources
        = [Json.jstr "perplexity"] :=
  ⟨C9_sources_order.1 "rice" "Punjab" (POutcome.content "\x7b\"a\":1\x7d") none
      ⟨"rice", "Punjab", Json.jobj [("a", Json.jnum 1)], none, none, none, none, none,
        ["perplexity"]⟩ rfl,
   C9_sources_order.2.2.1 "wheat" 100 50000 (Json.jstr "doc")
      (some ("Data: " ++ dumps (Json.jobj (c9Kvs.take 10)) ++ "!")) (Json.jobj (c9Kvs.take 10))
      rfl
      (expandProfit_embedded (c9Kvs.take 10) "Data: " "!" (by decide) (by decide) (by decide)
        (by decide) ⟨[], rfl⟩)
      rfl,
   C9_sources_order.2.2.2 "wheat" 100 50000 (Json.jstr "doc") none rfl rfl⟩

/-- A line on which neither temperature condition fires leaves the
temperature field untouched. -/
theorem updateLine_keeps_temperature (st : CondState) (raw : List Char)
    (h1 : hasSubL "Temperature:".data (trimL raw) = false)
    (h2 : hasSubL "- Temperature:".data (trimL raw) = false) :
    (updateLine st raw).temperature = st.temperature := by
  simp only [updateLine, h1, h2]
  split_ifs <;> simp_all

/-- A line on which neither humidity condition fires leaves the humidity
field untouched (whichever other branch it takes). -/
theorem updateLine_keeps_humidity (st : CondState) (raw : List Char)
    (h1 : hasSubL "Humidity:".data (trimL raw) = false)
    (h2 : hasSubL "- Humidity:".data (trimL raw) = false) :
    (updateLine st raw).humidity = st.humidity := by
  simp only [updateLine, h1, h2]
  split_ifs <;> simp_all

/-- A line on which neither wind condition fires leaves the wind field
untouched. -/
theorem updateLine_keeps_wind (st : CondState) (raw : List Char)
    (h1 : hasSubL "Wind:".data (trimL raw) = false)
    (h2 : hasSubL "- Wind:".data (trimL raw) = false) :
    (updateLine st raw).wind_speed = st.wind_speed := by
  simp only [updateLine, h1, h2]
  split_ifs <;> simp_all

/-- A line on which neither rainfall condition fires leaves the rainfall
field untouched. -/
theorem updateLine_keeps_rainfall (st : CondState) (raw : List Char)
    (h1 : hasSubL "Rainfall".data (trimL raw) = false)
    (h2 : hasSubL "- Rainfall".data (trimL raw) = false) :
    (updateLine st raw).rainfall = st.rainfall := by
  simp only [updateLine, h1, h2]
  split_ifs <;> simp_all

/-- Folding the scan over lines without a temperature label keeps the
running temperature. -/
theorem foldl_keeps_temperature (lines : List (List Char)) (st : CondState)
    (h : ∀ l ∈ lines, hasSubL "Temperature:".data (trimL l) = false
        ∧ hasSubL "- Temperature:".data (trimL l) = false) :
    (lines.foldl updateLine st).temperature = st.temperature := by
  induction lines generalizing st with
  | nil => rfl
  | cons l ls ih =>
    rw [List.foldl_cons, ih _ (fun x hx => h x (List.mem_cons_of_mem _ hx))]
    exact updateLine_keeps_temperature st l (h l (List.mem_cons_self _ _)).1
      (h l (List.mem_cons_self _ _)).2

/-- Folding the scan over lines without a humidity label keeps the running
humidity. -/
theorem foldl_keeps_humidity (lines : List (List Char)) (st : CondState)
    (h : ∀ l ∈ lines, hasSubL "Humidity:".data (trimL l) = false
        ∧ hasSubL "- Humidity:".data (trimL l) = false) :
    (lines.foldl updateLine st).humidity = st.humidity := by
  induction lines generalizing st with
  | nil => rfl
  | cons l ls ih =>
    rw [List.foldl_cons, ih _ (fun x hx => h x (List.mem_cons_of_mem _ hx))]
    exact updateLine_keeps_humidity st l (h l (List.mem_cons_self _ _)).1
      (h l (List.mem_cons_self _ _)).2

/-- Folding the scan over lines without a wind label keeps the running wind
speed. -/
theorem foldl_keeps_wind (lines : List (List Char)) (st : CondState)
    (h : ∀ l ∈ lines, hasSubL "Wind:".data (trimL l) = false
        ∧ hasSubL "- Wind:".data (trimL l) = false) :
    (lines.foldl updateLine st).wind_speed = st.wind_speed := by
  induction lines generalizing st with
  | nil => rfl
  | cons l ls ih =>
    rw [List.foldl_cons, ih _ (fun x hx => h x (List.mem_cons_of_mem _ hx))]
    exact updateLine_keeps_wind st l (h l (List.mem_cons_self _ _)).1
      (h l (List.mem_cons_self _ _)).2

/-- Folding the scan over lines without a rainfall label keeps the running
rainfall. -/
theorem foldl_keeps_rainfall (lines : List (List Char)) (st : CondState)
    (h : ∀ l ∈ lines, hasSubL "Rainfall".data (trimL l) = false
        ∧ hasSubL "- Rainfall".data (trimL l) = false) :
    (lines.foldl updateLine st).rainfall = st.rainfall := by
  induction lines generalizing st with
  | nil => rfl
  | cons l ls ih =>
    rw [List.foldl_cons, ih _ (fun x hx => h x (List.mem_cons_of_mem _ hx))]
    exact updateLine_keeps_rainfall st l (h l (List.mem_cons_self _ _)).1
      (h l (List.mem_cons_self _ _)).2

/-- Claim C8 counterexample: on the claimed scenario line
`"- Temperature: 31°C; Humidity: 60%"` the `elif` chain consumes only the
first label — temperature is extracted but humidity is left at its default
`"Not available"`, not `"60%"`. -/
theorem C8_counterexample :
    (parseCurrentConditions c8OneLine).temperature = "31°C".data
    ∧ (parseCurrentConditions c8OneLine).humidity = notAvailable
    ∧ notAvailable ≠ "60%".data := ⟨rfl, rfl, by decide⟩

/-- Claim C8 (amended): the scan consumes at most one label per line — on
the scenario line `"- Temperature: 31°C; Humidity: 60%"` it extracts
`temperature = "31°C"` (the substring after the label and before the next
semicolon) but leaves `humidity = "Not available"`; with each label on its
own line both values are extracted; and each of the four fields keeps its
`"Not available"` default when its label (bare or `"- "`-prefixed) occurs in
no stripped line of the selected section. -/
theorem C8_weather_scan :
    ((parseCurrentConditions c8OneLine).temperature = "31°C".data
      ∧ (parseCurrentConditions c8OneLine).humidity = notAvailable)
    ∧ ((parseCurrentConditions c8TwoLines).temperature = "31°C".data
      ∧ (parseCurrentConditions c8TwoLines).humidity = "60%".data)
    ∧ (∀ content : String,
        (∀ l ∈ splitOnL ['\n'] (currentSection content.data),
            hasSubL "Temperature:".data (trimL l) = false
            ∧ hasSubL "- Temperature:".data (trimL l) = false) →
        (parseCurrentConditions content).temperature = notAvailable)
    ∧ (∀ content : String,
        (∀ l ∈ splitOnL ['\n'] (currentSection content.data),
            hasSubL "Humidity:".data (trimL l) = false
            ∧ hasSubL "- Humidity:".data (trimL l) = false) →
        (parseCurrentConditions content).humidity = notAvailable)
    ∧ (∀ content : String,
        (∀ l ∈ splitOnL ['\n'] (currentSection content.data),
            hasSubL "Wind:".data (trimL l) = false
            ∧ hasSubL "- Wind:".data (trimL l) = false) →
        (parseCurrentConditions content).wind_speed = notAvailable)
    ∧ (∀ content : String,
        (∀ l ∈ splitOnL ['\n'] (currentSection content.data),
            hasSubL "Rainfall".data (trimL l) = false
            ∧ hasSubL "- Rainfall".data (trimL l) = false) →
        (parseCurrentConditions content).rainfall = notAvailable) := by
  refine ⟨⟨rfl, rfl⟩, ⟨rfl, rfl⟩, ?_, ?_, ?_, ?_⟩
  · intro content h
    exact foldl_keeps_temperature _ _ h
  · intro content h
    exact foldl_keeps_humidity _ _ h
  · intro content h
    exact foldl_keeps_wind _ _ h
  · intro content h
    exact foldl_keeps_rainfall _ _ h

/-- Witness for C8's amended statement: a label-free forecast leaves all
four fields at their defaults. -/
theorem C8_weather_scan_witness :
    (parseCurrentConditions "Sunny all week.").temperature = notAvailable
    ∧ (parseCurrentConditions "Sunny all week.").humidity = notAvailable
    ∧ (parseCurrentConditions "Sunny all week.").wind_speed = notAvailable
    ∧ (parseCurrentConditions "Sunny all week.").rainfall = notAvailable :=
  ⟨C8_weather_scan.2.2.1 "Sunny all week." (by decide),
   C8_weather_scan.2.2.2.1 "Sunny all week." (by decide),
   C8_weather_scan.2.2.2.2.1 "Sunny all week." (by decide),
   C8_weather_scan.2.2.2.2.2 "Sunny all week." (by decide)⟩

end AgriSage
